import Mathlib

/-!
Verification of the flow-execution and command-processing engine.

The development shallowly embeds two layers of the source:

* namespace `Cdu` — the command model, command cleanup / validation and
  command execution (`rasa/dialogue_understanding/processor/command_processor.py`,
  `rasa/dialogue_understanding/commands/correct_slots_command.py`).
* namespace `Policy` — the flow-policy executor, stack and step model
  (`rasa/core/policies/flow_policy.py`, `rasa/shared/core/flows/flow_step.py`).

Python lists are Lean lists (last element = top of a stack where the source
says so), Python dicts are association lists with last-write-wins insertion
(`dictUpsert`), raised exceptions are `Except.error`, `None` is `Option.none`
or a dedicated null value. Helpers whose defining module is not part of the
repository snapshot are modelled from the specification and say so in their
doc comment.
-/

namespace Cdu

/-- A slot value as it appears on the tracker and inside commands: either
Python `None`, a plain string, or a string-to-string dictionary (used for
the flow-fingerprint map). -/
inductive SlotValue where
  | vnone : SlotValue
  | vstr : String → SlotValue
  | vmap : List (String × String) → SlotValue
deriving DecidableEq

/-- `CorrectedSlot` from `correct_slots_command.py`: a slot that was
corrected, with its proposed value. -/
structure CorrectedSlot where
  name : String
  value : SlotValue
deriving DecidableEq

/-- The command taxonomy of `rasa/dialogue_understanding/commands`.
`chitChatAnswer` and `knowledgeAnswer` are the two concrete subclasses of
`FreeFormAnswerCommand`. -/
inductive Command where
  | startFlow : String → Command
  | cancelFlow : Command
  | setSlot : String → SlotValue → Command
  | correctSlots : List CorrectedSlot → Command
  | clarify : List String → Command
  | chitChatAnswer : Command
  | knowledgeAnswer : Command
  | handleCodeChange : Command
deriving DecidableEq

/-- `isinstance(command, FreeFormAnswerCommand)`. -/
def Command.isFreeFormAnswer : Command → Bool
  | .chitChatAnswer => true
  | .knowledgeAnswer => true
  | _ => false

/-- `isinstance(command, CancelFlowCommand)`. -/
def Command.isCancelFlow : Command → Bool
  | .cancelFlow => true
  | _ => false

/-- `isinstance(command, CorrectSlotsCommand)`. -/
def Command.isCorrectSlots : Command → Bool
  | .correctSlots _ => true
  | _ => false

/-- `isinstance(command, ClarifyCommand)`. -/
def Command.isClarify : Command → Bool
  | .clarify _ => true
  | _ => false

/-- Modelled from the spec: the id of the correction pattern flow
(`FLOW_PATTERN_CORRECTION_ID` in `patterns/correction.py`, a module not in
the snapshot); the spec calls it the "correction-pattern" flow. -/
def FLOW_PATTERN_CORRECTION_ID : String := "pattern_correction"

/-- Modelled from the spec: the id of the collect-information pattern flow
(`patterns/collect_information.py` is not in the snapshot). -/
def FLOW_PATTERN_COLLECT_INFORMATION_ID : String := "pattern_collect_information"

/-- Modelled from the spec: the tracker slot holding the per-flow
fingerprint map (`FLOW_HASHES_SLOT` in `shared/core/constants.py`, not in
the snapshot). -/
def FLOW_HASHES_SLOT : String := "flow_hashes"

/-- `END_STEP` from `shared/core/flows/flow_step.py`. -/
def END_STEP : String := "END"

/-- `START_STEP` from `shared/core/flows/flow_step.py`. -/
def START_STEP : String := "START"

/-- `CONTINUE_STEP_PREFIX` from `shared/core/flows/flow_step.py`: the marker
prepended by `ContinueFlowStep.continue_step_for_id`. -/
def CONTINUE_STEP_MARKER : String := "NEXT:"

/-- `ContinueFlowStep.continue_step_for_id` from
`shared/core/flows/flow_step.py`. -/
def continueStepForId (stepId : String) : String :=
  CONTINUE_STEP_MARKER ++ stepId

/-- Payload of a `CorrectionPatternFlowStackFrame`: its frame id, current
step id, the pending corrected slots, and the reset target recorded when the
frame was created. The frame's `flow_id` is fixed to
`FLOW_PATTERN_CORRECTION_ID`. -/
structure CorrectionFrame where
  frameId : String
  stepId : String
  correctedSlots : List (String × SlotValue)
  isResetOnly : Bool
  resetFlowId : Option String
  resetStepId : Option String
deriving DecidableEq

/-- A dialogue-stack frame (`rasa/dialogue_understanding/stack/frames`):
user flow frames, the two pattern frames the claims need (correction and
collect-information, both `BaseFlowStackFrame`s), and the non-flow frames
(chitchat / search) which carry only a frame id. -/
inductive DSFrame where
  | userFlow : (frameId flowId stepId frameType : String) → DSFrame
  | correction : CorrectionFrame → DSFrame
  | collectInfo : (frameId stepId collectSlot utter : String) → DSFrame
  | chitChat : (frameId : String) → DSFrame
  | search : (frameId : String) → DSFrame
deriving DecidableEq

/-- `isinstance(frame, BaseFlowStackFrame)`: every frame that points into a
flow (user flows and pattern frames). -/
def DSFrame.isBaseFlowFrame : DSFrame → Bool
  | .userFlow _ _ _ _ => true
  | .correction _ => true
  | .collectInfo _ _ _ _ => true
  | _ => false

/-- `isinstance(frame, UserFlowStackFrame)`. -/
def DSFrame.isUserFlow : DSFrame → Bool
  | .userFlow _ _ _ _ => true
  | _ => false

/-- `isinstance(frame, CollectInformationPatternFlowStackFrame)`. -/
def DSFrame.isCollectInfoPattern : DSFrame → Bool
  | .collectInfo _ _ _ _ => true
  | _ => false

/-- `frame.frame_id`: stable identity of a frame instance. -/
def DSFrame.frameId : DSFrame → String
  | .userFlow fid _ _ _ => fid
  | .correction c => c.frameId
  | .collectInfo fid _ _ _ => fid
  | .chitChat fid => fid
  | .search fid => fid

/-- `frame.flow_id` for `BaseFlowStackFrame`s (`none` for non-flow frames,
which do not have one). Pattern frames carry their fixed pattern flow id. -/
def DSFrame.flowId? : DSFrame → Option String
  | .userFlow _ fid _ _ => some fid
  | .correction _ => some FLOW_PATTERN_CORRECTION_ID
  | .collectInfo _ _ _ _ => some FLOW_PATTERN_COLLECT_INFORMATION_ID
  | _ => none

/-- `frame.step_id` for `BaseFlowStackFrame`s. -/
def DSFrame.stepId? : DSFrame → Option String
  | .userFlow _ _ sid _ => some sid
  | .correction c => some c.stepId
  | .collectInfo _ sid _ _ => some sid
  | _ => none

/-- `frame.step_id = s` — the in-place mutation performed by
`end_previous_correction` (identity on non-flow frames, which the source
never touches). -/
def DSFrame.withStepId (s : String) : DSFrame → DSFrame
  | .userFlow fid flid _ ft => .userFlow fid flid s ft
  | .correction c => .correction { c with stepId := s }
  | .collectInfo fid _ cs u => .collectInfo fid s cs u
  | f => f

/-- `DialogueStack` (`stack/dialogue_stack.py`): ordered frames, last
element is the top. -/
structure DialogueStack where
  frames : List DSFrame
deriving DecidableEq

/-- `stack.top()`. -/
def DialogueStack.top (s : DialogueStack) : Option DSFrame :=
  s.frames.getLast?

/-- Python `list.insert(index, x)`: inserts before `index`, appending when
the index is past the end. -/
def pyInsert : List DSFrame → Nat → DSFrame → List DSFrame
  | l, 0, f => f :: l
  | [], _ + 1, f => [f]
  | x :: xs, n + 1, f => x :: pyInsert xs n f

/-- Modelled from the spec: `DialogueStack.push(frame, index)` — "push at an
explicit index allows inserting below the top" (`dialogue_stack.py` is not
in the snapshot). -/
def DialogueStack.push (s : DialogueStack) (f : DSFrame) (index : Nat) : DialogueStack :=
  ⟨pyInsert s.frames index f⟩

/-- The flow-step model of the dialogue-understanding layer
(`shared/core/flows/flow_step.py`): collect-information steps carry the slot
they fill and the `ask_before_filling` flag; every other step kind is only
identified by its id here, which is all the embedded functions inspect. -/
inductive FlowStepC where
  | collect : (id collectSlot utter : String) → (askBeforeFilling : Bool) → FlowStepC
  | other : (id : String) → FlowStepC
deriving DecidableEq

/-- `step.id`. -/
def FlowStepC.id : FlowStepC → String
  | .collect i _ _ _ => i
  | .other i => i

/-- `isinstance(step, CollectInformationFlowStep)`. -/
def FlowStepC.isCollect : FlowStepC → Bool
  | .collect _ _ _ _ => true
  | _ => false

/-- The `collect` attribute of a collect-information step. -/
def FlowStepC.collectSlot? : FlowStepC → Option String
  | .collect _ cs _ _ => some cs
  | _ => none

/-- `ask_before_filling` of a collect-information step (`false` elsewhere,
never read there). -/
def FlowStepC.askBeforeFilling : FlowStepC → Bool
  | .collect _ _ _ a => a
  | _ => false

/-- A flow of the dialogue-understanding layer: id, structural fingerprint
and steps. The fingerprint is data here — the spec describes it as a stable
hash of the definition, used only for change detection. -/
structure Flow where
  id : String
  fingerprint : String
  steps : List FlowStepC
deriving DecidableEq

/-- `FlowsList` (`shared/core/flows`): the flow catalog. -/
structure FlowsList where
  underlyingFlows : List Flow
deriving DecidableEq

/-- Modelled from the spec: `flow_by_id` — the catalog is "queryable by id"
(`shared/core/flows/__init__.py` is not in the snapshot). -/
def FlowsList.flowById (fl : FlowsList) (fid : String) : Option Flow :=
  fl.underlyingFlows.find? (fun f => f.id = fid)

/-- Modelled from the spec: `step_by_id` restricted to user-defined step ids
("stepById(flowId, stepId) -> Step | NotFound"); the synthetic
START/END/continue ids resolve to internal steps none of the embedded
functions inspect. -/
def Flow.stepById (f : Flow) (stepId : String) : Option FlowStepC :=
  f.steps.find? (fun s => s.id = stepId)

/-- `flow.get_collect_steps()`: all collect-information steps of the flow
(modelled from the spec's collect metadata; the defining module is not in
the snapshot). -/
def Flow.getCollectSteps (f : Flow) : List FlowStepC :=
  f.steps.filter FlowStepC.isCollect

/-- Modelled from the spec: `flow.previous_collect_steps(step_id)` — "walks
the active flow's history of previously-executed collect-steps", i.e. the
collect steps declared before the given step. -/
def Flow.previousCollectSteps (f : Flow) (stepId : String) : List FlowStepC :=
  (f.steps.takeWhile (fun s => s.id ≠ stepId)).filter FlowStepC.isCollect

/-- The dialogue state tracker as consumed by the command processor: the
dialogue stack, the slot store, and the set of slots that were previously
filled during this conversation (`tracker.get_previously_updated_slots`,
whose defining module is not in the snapshot, modelled from the spec as
tracker data: slots "previously actually filled during this
conversation"). -/
structure DialogueStateTracker where
  stackFrames : List DSFrame
  slots : List (String × SlotValue)
  previouslyUpdatedSlots : List String
deriving DecidableEq

/-- `tracker.stack`. -/
def DialogueStateTracker.stack (t : DialogueStateTracker) : DialogueStack :=
  ⟨t.stackFrames⟩

/-- `tracker.get_slot(name)`; a missing slot reads as `None`. -/
def DialogueStateTracker.getSlot (t : DialogueStateTracker) (name : String) : SlotValue :=
  match t.slots.lookup name with
  | some v => v
  | none => .vnone

/-- Python dict insertion `d[k] = v` on an association list: overwrite the
existing entry in place, else append. -/
def dictUpsertV (m : List (String × SlotValue)) (k : String) (v : SlotValue) :
    List (String × SlotValue) :=
  if m.any (fun p => p.1 = k) then
    m.map (fun p => if p.1 = k then (k, v) else p)
  else m ++ [(k, v)]

/-- Python dict equality on association lists built from dicts: same keys,
same values, order-insensitive. -/
def dictBEq (a b : List (String × String)) : Bool :=
  a.all (fun p => b.lookup p.1 = some p.2) && b.all (fun p => a.lookup p.1 = some p.2)

/-- `tracker.get_slot(FLOW_HASHES_SLOT) or {}`: the stored per-flow
fingerprint map (empty when unset). -/
def storedFingerprints (t : DialogueStateTracker) : List (String × String) :=
  match t.getSlot FLOW_HASHES_SLOT with
  | .vmap m => m
  | _ => []

/-- Modelled from the spec: `top_flow_frame(stack)` — the topmost frame that
is a `BaseFlowStackFrame`, looking through collect-information pattern
frames (`stack/utils.py` is not in the snapshot). The spec's correction
stacking rule consults "the current top frame" for a pending correction
while a collect question is on the stack above it, so the lookup must skip
the collect-information pattern; `get_current_collect_step` in the snapshot
likewise documents the collect pattern as sitting on top of the frame that
triggered it. -/
def topFlowFrame (stack : DialogueStack) : Option DSFrame :=
  stack.frames.reverse.find?
    (fun f => f.isBaseFlowFrame && !f.isCollectInfoPattern)

/-- Modelled from the spec: `top_user_flow_frame(stack)` — the topmost
user-flow frame, the spec's "active flow" (`stack/utils.py` is not in the
snapshot). -/
def topUserFlowFrame (stack : DialogueStack) : Option DSFrame :=
  stack.frames.reverse.find? DSFrame.isUserFlow

/-- `get_current_collect_step` from `command_processor.py`: the collect
step the conversation is currently in, read from the frame below the
topmost collect-information pattern frame. Every abnormal branch of the
source returns `None`; the lookup of a dangling step reference (which the
source would surface as an exception from `frame.step`) is excluded by the
spec's step-id validity invariant and reads as `None` here. -/
def getCurrentCollectStep (stack : DialogueStack) (allFlows : FlowsList) :
    Option FlowStepC :=
  match stack.top with
  | none => none
  | some topFrame =>
    if !topFrame.isCollectInfoPattern then none
    else if stack.frames.length ≤ 1 then none
    else
      match stack.frames.get? (stack.frames.length - 2) with
      | none => none
      | some frameBelow =>
        if !frameBelow.isBaseFlowFrame then none
        else
          match frameBelow.flowId? with
          | none => none
          | some flid =>
            match frameBelow.stepId? with
            | none => none
            | some sid =>
              match allFlows.flowById flid with
              | none => none
              | some flow =>
                match flow.stepById sid with
                | some st => if st.isCollect then some st else none
                | none => none

/-- The `corrected_slots` of the top flow frame when it is a correction
pattern frame, else the empty dict — the `already_corrected_slots` lookup of
`clean_up_slot_command`. -/
def alreadyCorrectedSlots (stack : DialogueStack) : List (String × SlotValue) :=
  match topFlowFrame stack with
  | some (.correction c) => c.correctedSlots
  | _ => []

/-- The mapping induced by an ordered correction set (Python dict
construction from the `corrected_slots` entries: later entries for the same
slot win). Used to state what a correction set "maps" a slot to. -/
def correctionDict (sl : List CorrectedSlot) : List (String × SlotValue) :=
  sl.foldl (fun m c => dictUpsertV m c.name c.value) []

/-- A frame fast-forwarded to its END step when it is a flow frame — the
effect of `end_previous_correction` on each frame above the prior
correction frame. -/
def DSFrame.fastForwardedToEnd (f : DSFrame) : DSFrame :=
  if f.isBaseFlowFrame then f.withStepId (continueStepForId END_STEP) else f

/-- The in-place `c.corrected_slots.append(corrected_slot)` / `for…else`
grouping of `clean_up_slot_command`: extend the first `CorrectSlotsCommand`
in the list, or append a fresh one at the end when none exists. -/
def appendCorrectedSlot : List Command → CorrectedSlot → List Command
  | [], c => [.correctSlots [c]]
  | .correctSlots sl :: rest, c => .correctSlots (sl ++ [c]) :: rest
  | cmd :: rest, c => cmd :: appendCorrectedSlot rest c

/-- `clean_up_slot_command` from `command_processor.py`. The source's
`slots_so_far` argument is the value of `filled_slots_for_active_flow`
(a helper not in the snapshot); the theorems quantify over it. -/
def cleanUpSlotCommand (commandsSoFar : List Command) (name : String)
    (value : SlotValue) (stack : DialogueStack) (allFlows : FlowsList)
    (slotsSoFar : List String) : List Command :=
  if name ∈ slotsSoFar then
    let isCurrentCollect : Bool :=
      match getCurrentCollectStep stack allFlows with
      | some cs => cs.collectSlot? = some name
      | none => false
    if isCurrentCollect then
      -- not a correction but rather an answer to the current collect info
      commandsSoFar ++ [.setSlot name value]
    else
      let already := alreadyCorrectedSlots stack
      if already.lookup name = some value then
        -- skip: slot already corrected to this value
        commandsSoFar
      else
        appendCorrectedSlot commandsSoFar ⟨name, value⟩
  else
    commandsSoFar ++ [.setSlot name value]

/-- One iteration of the `clean_up_commands` loop; `commands` is the full
original list, which the clarify branches consult. -/
def cleanUpOne (commands : List Command) (stack : DialogueStack)
    (allFlows : FlowsList) (slotsSoFar : List String)
    (clean : List Command) (command : Command) : List Command :=
  match command with
  | .setSlot n v => cleanUpSlotCommand clean n v stack allFlows slotsSoFar
  | .cancelFlow =>
    if clean.any Command.isCancelFlow then clean else clean ++ [.cancelFlow]
  | .chitChatAnswer => .chitChatAnswer :: clean
  | .knowledgeAnswer => .knowledgeAnswer :: clean
  | .clarify opts =>
    if commands.length > 1 then
      if commands.all Command.isClarify && clean.length = 0 then
        clean ++ [.clarify opts]
      else clean
    else clean ++ [.clarify opts]
  | cmd => clean ++ [cmd]

/-- `clean_up_commands` from `command_processor.py`. -/
def cleanUpCommands (commands : List Command) (stack : DialogueStack)
    (allFlows : FlowsList) (slotsSoFar : List String) : List Command :=
  commands.foldl (cleanUpOne commands stack allFlows slotsSoFar) []

/-- `validate_state_of_commands` from `command_processor.py`; a raised
`ValueError` is an `Except.error`. -/
def validateStateOfCommands (commands : List Command) : Except String Unit :=
  if (commands.filter Command.isCancelFlow).length > 1 then
    .error "There can only be one cancel flow command."
  else
    let freeForm := commands.filter Command.isFreeFormAnswer
    if freeForm ≠ commands.take freeForm.length then
      .error "Free form answer commands must be at start of the predicted command list."
    else if (commands.filter Command.isCorrectSlots).length > 1 then
      .error "There can only be one correct slots command."
    else
      .ok ()

/-- Events produced while executing commands: slot-set events and the
stack-update event carrying the new serialized stack. -/
inductive Event where
  | slotSet : String → SlotValue → Event
  | stackUpdated : List DSFrame → Event
deriving DecidableEq

/-- `tracker.update_with_events`: apply slot-set events to the slot store
(last write wins per key) and stack updates to the stack. -/
def DialogueStateTracker.updateWithEvents (t : DialogueStateTracker)
    (events : List Event) : DialogueStateTracker :=
  events.foldl
    (fun tr e =>
      match e with
      | .slotSet k v => { tr with slots := dictUpsertV tr.slots k v }
      | .stackUpdated fs => { tr with stackFrames := fs })
    t

/-- `find_updated_flows` from `command_processor.py`: flow ids on the stack
whose flow vanished from the catalog or whose fingerprint differs from the
stored one. -/
def findUpdatedFlows (tracker : DialogueStateTracker) (allFlows : FlowsList) :
    List String :=
  let stored := storedFingerprints tracker
  tracker.stackFrames.filterMap
    (fun frame =>
      match frame.flowId? with
      | none => none
      | some flid =>
        match allFlows.flowById flid with
        | none => some flid
        | some flow =>
          match stored.lookup flow.id with
          | some h => if flow.fingerprint ≠ h then some flid else none
          | none => none)

/-- `calculate_flow_fingerprints` from `command_processor.py`. -/
def calculateFlowFingerprints (allFlows : FlowsList) : List (String × String) :=
  allFlows.underlyingFlows.map (fun f => (f.id, f.fingerprint))

/-- The backwards scan of `remove_duplicated_set_slots`, carrying the keys
seen so far. -/
def removeDupSetSlotsRev (seen : List String) : List Event → List Event
  | [] => []
  | .slotSet k v :: rest =>
    if k ∈ seen then removeDupSetSlotsRev seen rest
    else .slotSet k v :: removeDupSetSlotsRev (k :: seen) rest
  | e :: rest => e :: removeDupSetSlotsRev seen rest

/-- `remove_duplicated_set_slots` from `command_processor.py`: keep only the
last slot-set event per key. -/
def removeDuplicatedSetSlots (events : List Event) : List Event :=
  (removeDupSetSlotsRev [] events.reverse).reverse

/-- The fingerprint-persistence events of `execute_commands`: one slot-set
with the recomputed fingerprint map when it differs from the stored one. -/
def execFlowHashEvents (tracker : DialogueStateTracker) (allFlows : FlowsList) :
    List Event :=
  if ¬ dictBEq (calculateFlowFingerprints allFlows) (storedFingerprints tracker) then
    [.slotSet FLOW_HASHES_SLOT (.vmap (calculateFlowFingerprints allFlows))]
  else []

/-- The `for command in reversed_commands` loop of `execute_commands`:
run each command, extend the event list and apply the new events to the
tracker. -/
def runCommandsLoop (allFlows : FlowsList)
    (runCmd : Command → DialogueStateTracker → FlowsList →
      DialogueStateTracker → List Event)
    (original : DialogueStateTracker) :
    List Command → List Event × DialogueStateTracker →
      List Event × DialogueStateTracker
  | [], st => st
  | cmd :: rest, st =>
    let newEvents := runCmd cmd st.2 allFlows original
    runCommandsLoop allFlows runCmd original rest
      (st.1 ++ newEvents, st.2.updateWithEvents newEvents)

/-- `execute_commands` from `command_processor.py`. `commands` is the value
of `get_commands_from_tracker` (the parsed commands of the latest message),
`slotsSoFar` the value of `filled_slots_for_active_flow`, and `runCmd`
abstracts `command.run_command_on_tracker(tracker, all_flows,
original_tracker)`; the theorems quantify over all of them. -/
def executeCommands (commands : List Command) (slotsSoFar : List String)
    (tracker : DialogueStateTracker) (allFlows : FlowsList)
    (runCmd : Command → DialogueStateTracker → FlowsList →
      DialogueStateTracker → List Event) : Except String (List Event) :=
  let originalTracker := tracker
  let cleaned := cleanUpCommands commands tracker.stack allFlows slotsSoFar
  let updatedFlows := findUpdatedFlows tracker allFlows
  let commands2 := if updatedFlows ≠ [] then [Command.handleCodeChange] else cleaned
  let flowHashEvents := execFlowHashEvents tracker allFlows
  let tracker1 := tracker.updateWithEvents flowHashEvents
  let reversedCommands := commands2.reverse
  match validateStateOfCommands commands2 with
  | .error e => .error e
  | .ok _ =>
    let result :=
      runCommandsLoop allFlows runCmd originalTracker reversedCommands
        (flowHashEvents, tracker1)
    .ok (removeDuplicatedSetSlots result.1)

/-- `are_all_slots_reset_only` from `correct_slots_command.py`. -/
def areAllSlotsResetOnly (proposedSlots : List (String × SlotValue))
    (allFlows : FlowsList) : Bool :=
  allFlows.underlyingFlows.all
    (fun flow =>
      flow.getCollectSteps.all
        (fun st =>
          match st.collectSlot? with
          | some cs => !(proposedSlots.any (fun p => p.1 = cs)) || st.askBeforeFilling
          | none => true))

/-- `find_earliest_updated_collect_info` from `correct_slots_command.py`;
the `InvalidFlowIdException` / step-resolution failures raised by
`user_frame.flow` / `user_frame.step` are `Except.error`s. -/
def findEarliestUpdatedCollectInfo (userFlowId userStepId : String)
    (updatedSlots : List (String × SlotValue)) (allFlows : FlowsList)
    (tracker : DialogueStateTracker) : Except String (Option FlowStepC) :=
  match allFlows.flowById userFlowId with
  | none => .error "InvalidFlowIdException"
  | some flow =>
    match flow.stepById userStepId with
    | none => .error "InvalidFlowStepIdException"
    | some step =>
      .ok ((flow.previousCollectSteps step.id).reverse.find?
        (fun cs =>
          match cs.collectSlot? with
          | some slotName =>
            updatedSlots.any (fun p => p.1 = slotName) &&
              slotName ∈ tracker.previouslyUpdatedSlots
          | none => false))

/-- `corrected_slots_dict` from `correct_slots_command.py`: the proposed
corrections as a dict, dropping slots already at the proposed value. -/
def correctedSlotsDict (correctedSlots : List CorrectedSlot)
    (tracker : DialogueStateTracker) : List (String × SlotValue) :=
  correctedSlots.foldl
    (fun acc c =>
      if tracker.getSlot c.name ≠ c.value then dictUpsertV acc c.name c.value
      else acc)
    []

/-- The `for i, frame in enumerate(stack.frames)` search of
`index_for_correction_frame`: the index of the first frame with the given
frame id. -/
def findFrameIndex (targetId : String) : List DSFrame → Option Nat
  | [] => none
  | f :: rest =>
    if f.frameId = targetId then some 0
    else (findFrameIndex targetId rest).map (· + 1)

/-- `index_for_correction_frame` from `correct_slots_command.py`. -/
def indexForCorrectionFrame (topFrame : DSFrame) (stack : DialogueStack) :
    Except String Nat :=
  if topFrame.flowId? ≠ some FLOW_PATTERN_CORRECTION_ID then
    .ok stack.frames.length
  else
    match findFrameIndex topFrame.frameId stack.frames with
    | some i => .ok i
    | none =>
      .error ("Could not find the previous correction frame " ++
        topFrame.frameId ++ " on the stack.")

/-- The reversed-order walk of `end_previous_correction`: set every
`BaseFlowStackFrame`'s step id to the continue-to-END marker, stopping after
the frame whose `frame_id` matches the target. -/
def endFramesUntil (targetId : String) : List DSFrame → List DSFrame
  | [] => []
  | f :: rest =>
    if f.isBaseFlowFrame then
      let f2 := f.withStepId (continueStepForId END_STEP)
      if f.frameId = targetId then f2 :: rest
      else f2 :: endFramesUntil targetId rest
    else f :: endFramesUntil targetId rest

/-- `end_previous_correction` from `correct_slots_command.py` (the source
mutates the frames in place; here the updated stack is returned). -/
def endPreviousCorrection (topFrame : DSFrame) (stack : DialogueStack) :
    DialogueStack :=
  if topFrame.flowId? ≠ some FLOW_PATTERN_CORRECTION_ID then stack
  else ⟨(endFramesUntil topFrame.frameId stack.frames.reverse).reverse⟩

/-- `create_correction_frame` from `correct_slots_command.py`. The frame id
of the created frame is generated by uuid in the source; it is an explicit
`freshFrameId` argument here and the theorems quantify over it. -/
def createCorrectionFrame (freshFrameId : String) (userFrame : Option DSFrame)
    (proposedSlots : List (String × SlotValue)) (allFlows : FlowsList)
    (tracker : DialogueStateTracker) : Except String (Option CorrectionFrame) :=
  match userFrame with
  | some (.userFlow _ flid sid _) =>
    let isResetOnly := areAllSlotsResetOnly proposedSlots allFlows
    match findEarliestUpdatedCollectInfo flid sid proposedSlots allFlows tracker with
    | .error e => .error e
    | .ok resetStep =>
      if resetStep = none ∧ isResetOnly = false then .ok none
      else
        .ok (some
          { frameId := freshFrameId
            stepId := START_STEP
            correctedSlots := proposedSlots
            isResetOnly := isResetOnly
            resetFlowId := some flid
            resetStepId := resetStep.map FlowStepC.id })
  | _ =>
    .ok (some
      { frameId := freshFrameId
        stepId := START_STEP
        correctedSlots := proposedSlots
        isResetOnly := false
        resetFlowId := none
        resetStepId := none })

/-- Modelled from the spec: `tracker.create_stack_updated_events` — the
serialized stack is "diffed to decide whether to emit an update"
(`trackers.py` is not in the snapshot). -/
def createStackUpdatedEvents (tracker : DialogueStateTracker)
    (stack : DialogueStack) : List Event :=
  if stack.frames = tracker.stackFrames then []
  else [.stackUpdated stack.frames]

/-- `CorrectSlotsCommand.run_command_on_tracker` from
`correct_slots_command.py`. -/
def runCorrectSlotsCommand (freshFrameId : String)
    (correctedSlots : List CorrectedSlot) (tracker : DialogueStateTracker)
    (allFlows : FlowsList) : Except String (List Event) :=
  let stack := tracker.stack
  let userFrame := topUserFlowFrame stack
  match topFlowFrame stack with
  | none =>
    -- no active flow: skip the command
    .ok []
  | some top =>
    let proposedSlots := correctedSlotsDict correctedSlots tracker
    match createCorrectionFrame freshFrameId userFrame proposedSlots allFlows
        tracker with
    | .error e => .error e
    | .ok none => .ok []
    | .ok (some correctionFrame) =>
      match indexForCorrectionFrame top stack with
      | .error e => .error e
      | .ok insertionIndex =>
        let stack2 := endPreviousCorrection top stack
        let stack3 := stack2.push (.correction correctionFrame) insertionIndex
        .ok (createStackUpdatedEvents tracker stack3)

end Cdu

namespace Policy

/-- `START_STEP` (flow module of the policy layer). -/
def START_STEP : String := "START"

/-- `END_STEP` (flow module of the policy layer). -/
def END_STEP : String := "END"

/-- `CONTINUE_STEP_PREFIX` ("NEXT:"), the continue-step marker. -/
def CONTINUE_STEP_MARKER : String := "NEXT:"

/-- `ACTION_LISTEN_NAME` from `shared/core/constants.py`. -/
def ACTION_LISTEN_NAME : String := "action_listen"

/-- Modelled from the spec: `FLOW_PREFIX` from `shared/constants.py` (not in
the snapshot) — the prefix of flow-trigger action names; its exact text is
irrelevant to the claims. -/
def FLOW_PRE : String := "flow_"

/-- Modelled from the spec: `CANCEL_FLOW_INTENT` from `shared/constants.py`
(not in the snapshot); only compared for equality. -/
def CANCEL_FLOW_INTENT : String := "cancel_flow"

/-- Modelled from the spec: `ACTION_SEND_TEXT` from
`shared/core/constants.py` (not in the snapshot). -/
def ACTION_SEND_TEXT : String := "action_send_text"

/-- Modelled from the spec: slot-name constants from
`shared/core/constants.py` (not in the snapshot): the serialized flow
stack. -/
def FLOW_STACK_SLOT : String := "flow_stack"

/-- Modelled from the spec: the previous-flow slot name. -/
def PREVIOUS_FLOW_SLOT : String := "previous_flow"

/-- Modelled from the spec: the cancelled-flow slot name. -/
def CANCELLED_FLOW_SLOT : String := "cancelled_flow"

/-- Modelled from the spec: the corrected-slots slot name. -/
def CORRECTED_SLOTS_SLOT : String := "corrected_slots"

/-- A JSON-like value: slot values, serialized stacks and action metadata.
`jnull` is Python `None`. -/
inductive JValue where
  | jnull : JValue
  | jstr : String → JValue
  | jarr : List JValue → JValue
  | jobj : List (String × JValue) → JValue

mutual

/-- Decidable equality for `JValue` (hand-written: the type nests lists). -/
def JValue.decEq : (a b : JValue) → Decidable (a = b)
  | .jnull, .jnull => isTrue rfl
  | .jnull, .jstr _ => isFalse (fun h => nomatch h)
  | .jnull, .jarr _ => isFalse (fun h => nomatch h)
  | .jnull, .jobj _ => isFalse (fun h => nomatch h)
  | .jstr _, .jnull => isFalse (fun h => nomatch h)
  | .jstr a, .jstr b =>
    match String.decEq a b with
    | isTrue h => isTrue (h ▸ rfl)
    | isFalse h => isFalse (fun hh => h (JValue.jstr.inj hh))
  | .jstr _, .jarr _ => isFalse (fun h => nomatch h)
  | .jstr _, .jobj _ => isFalse (fun h => nomatch h)
  | .jarr _, .jnull => isFalse (fun h => nomatch h)
  | .jarr _, .jstr _ => isFalse (fun h => nomatch h)
  | .jarr a, .jarr b =>
    match JValue.decEqArr a b with
    | isTrue h => isTrue (h ▸ rfl)
    | isFalse h => isFalse (fun hh => h (JValue.jarr.inj hh))
  | .jarr _, .jobj _ => isFalse (fun h => nomatch h)
  | .jobj _, .jnull => isFalse (fun h => nomatch h)
  | .jobj _, .jstr _ => isFalse (fun h => nomatch h)
  | .jobj _, .jarr _ => isFalse (fun h => nomatch h)
  | .jobj a, .jobj b =>
    match JValue.decEqObj a b with
    | isTrue h => isTrue (h ▸ rfl)
    | isFalse h => isFalse (fun hh => h (JValue.jobj.inj hh))

/-- Decidable equality for lists of `JValue`. -/
def JValue.decEqArr : (a b : List JValue) → Decidable (a = b)
  | [], [] => isTrue rfl
  | [], _ :: _ => isFalse (fun h => nomatch h)
  | _ :: _, [] => isFalse (fun h => nomatch h)
  | x :: xs, y :: ys =>
    match JValue.decEq x y, JValue.decEqArr xs ys with
    | isTrue h1, isTrue h2 => isTrue (h1 ▸ h2 ▸ rfl)
    | isFalse h1, _ => isFalse (fun hh => h1 (List.head_eq_of_cons_eq hh))
    | _, isFalse h2 => isFalse (fun hh => h2 (List.tail_eq_of_cons_eq hh))

/-- Decidable equality for string-keyed lists of `JValue`. -/
def JValue.decEqObj : (a b : List (String × JValue)) → Decidable (a = b)
  | [], [] => isTrue rfl
  | [], _ :: _ => isFalse (fun h => nomatch h)
  | _ :: _, [] => isFalse (fun h => nomatch h)
  | (k1, v1) :: xs, (k2, v2) :: ys =>
    match String.decEq k1 k2, JValue.decEq v1 v2, JValue.decEqObj xs ys with
    | isTrue h0, isTrue h1, isTrue h2 => isTrue (h0 ▸ h1 ▸ h2 ▸ rfl)
    | isFalse h0, _, _ =>
      isFalse (fun hh => h0 (congrArg Prod.fst (List.head_eq_of_cons_eq hh)))
    | _, isFalse h1, _ =>
      isFalse (fun hh => h1 (congrArg Prod.snd (List.head_eq_of_cons_eq hh)))
    | _, _, isFalse h2 => isFalse (fun hh => h2 (List.tail_eq_of_cons_eq hh))

end

instance : DecidableEq JValue := JValue.decEq

/-- Python truthiness of a `JValue` (`None`, `""`, `[]`, and the empty dict
are falsy). -/
def JValue.truthy : JValue → Bool
  | .jnull => false
  | .jstr s => s ≠ ""
  | .jarr l => !l.isEmpty
  | .jobj l => !l.isEmpty

/-- The string elements of a list value (used when a slot value is consumed
as a list of slot names). -/
def JValue.strings : JValue → List String
  | .jarr l => l.filterMap (fun v => match v with | .jstr s => some s | _ => none)
  | _ => []

/-- `QuestionScope` of the policy-layer flow module. -/
inductive QuestionScope where
  | flow : QuestionScope
  | globalScope : QuestionScope
deriving DecidableEq

/-- `TriggerCondition` from `shared/core/flows/flow_step.py`. -/
structure TriggerCondition where
  intent : String
  entities : List String
deriving DecidableEq

/-- A flow link of the policy layer (`StaticFlowLink`, `IfFlowLink`,
`ElseFlowLink`). The target of a branch-based link is optional because an
inline step sequence with no children has none (`BranchBasedLink.target`);
a static link always has one. -/
inductive FlowLink where
  | ifLink : (target : Option String) → (condition : Option String) → FlowLink
  | elseLink : (target : Option String) → FlowLink
  | staticLink : (target : String) → FlowLink
deriving DecidableEq

/-- `link.target`. -/
def FlowLink.target : FlowLink → Option String
  | .ifLink t _ => t
  | .elseLink t => t
  | .staticLink t => some t

/-- The step variants `flow_policy.py` dispatches on. `startInternal` and
`continueInternal` are the internal lifecycle steps synthesized by
`step_by_id`; they are not in `_run_step`'s dispatch chain. -/
inductive StepKind where
  | question : (question : String) → (scope : QuestionScope) →
      (skipIfFilled : Bool) → StepKind
  | action : (action : String) → StepKind
  | link : (link : String) → StepKind
  | setSlots : (slots : List (String × JValue)) → StepKind
  | userMessage : (triggerConditions : List TriggerCondition) → StepKind
  | entryPrompt : StepKind
  | generateResponse : (generationPrompt : String) → StepKind
  | endInternal : StepKind
  | startInternal : StepKind
  | continueInternal : StepKind
deriving DecidableEq

/-- A policy-layer flow step: its resolved id (`custom_id or default_id()`),
its kind, and its outgoing links (`step.next.links`). -/
structure FlowStep where
  id : String
  kind : StepKind
  next : List FlowLink
deriving DecidableEq

/-- `isinstance(step, QuestionFlowStep)` with its question. -/
def FlowStep.question? (s : FlowStep) : Option String :=
  match s.kind with
  | .question q _ _ => some q
  | _ => none

/-- A policy-layer flow: id, optional human name, and steps. -/
structure Flow where
  id : String
  name : Option String
  steps : List FlowStep
deriving DecidableEq

/-- `flow.first_step_in_flow()` (modelled from the spec's
"firstStep(flowId) -> Step"; the flow module of the policy layer is not in
the snapshot): the first user-defined step. -/
def Flow.firstStepInFlow (f : Flow) : Option FlowStep :=
  f.steps.head?

/-- `StartFlowStep(first_step_id)` from `shared/core/flows/flow_step.py`:
links to the first step when one exists. -/
def startFlowStep (f : Flow) : FlowStep :=
  { id := START_STEP
    kind := .startInternal
    next :=
      match f.firstStepInFlow with
      | some st => [.staticLink st.id]
      | none => [] }

/-- `EndFlowStep()` from `shared/core/flows/flow_step.py`. -/
def endFlowStep : FlowStep :=
  { id := END_STEP, kind := .endInternal, next := [] }

/-- `ContinueFlowStep(next)` from `shared/core/flows/flow_step.py`: links
back to the step to be re-run. -/
def continueFlowStep (target : String) : FlowStep :=
  { id := CONTINUE_STEP_MARKER ++ target
    kind := .continueInternal
    next := [.staticLink target] }

/-- `flow.step_by_id` (modelled from the spec's "stepById(flowId, stepId) ->
Step | NotFound" plus the synthetic START/END/continue ids of §3; the flow
module of the policy layer is not in the snapshot). -/
def Flow.stepById (f : Flow) (stepId : String) : Option FlowStep :=
  if stepId = START_STEP then some (startFlowStep f)
  else if stepId = END_STEP then some endFlowStep
  else if CONTINUE_STEP_MARKER.isPrefixOf stepId then
    some (continueFlowStep (stepId.drop CONTINUE_STEP_MARKER.length))
  else f.steps.find? (fun s => s.id = stepId)

/-- The policy-layer flow catalog. -/
structure FlowsList where
  underlyingFlows : List Flow
deriving DecidableEq

/-- Modelled from the spec: `flow_by_id` — the catalog is queryable by
id. -/
def FlowsList.flowById (fl : FlowsList) (fid : String) : Option Flow :=
  fl.underlyingFlows.find? (fun f => f.id = fid)

/-- `StackFrameType` from `flow_policy.py`. -/
inductive StackFrameType where
  | interrupt : StackFrameType
  | link : StackFrameType
  | resume : StackFrameType
  | correction : StackFrameType
  | regular : StackFrameType
deriving DecidableEq

/-- `StackFrameType.value`. -/
def StackFrameType.toStr : StackFrameType → String
  | .interrupt => "interrupt"
  | .link => "link"
  | .resume => "resume"
  | .correction => "correction"
  | .regular => "regular"

/-- `StackFrameType.from_str` from `flow_policy.py`; the
`NotImplementedError` on an unknown tag is an `Except.error`. -/
def StackFrameType.fromStr : Option String → Except String StackFrameType
  | none => .ok .regular
  | some s =>
    if s = "interrupt" then .ok .interrupt
    else if s = "link" then .ok .link
    else if s = "regular" then .ok .regular
    else if s = "resume" then .ok .resume
    else if s = "correction" then .ok .correction
    else .error "NotImplementedError"

/-- `FlowStackFrame` from `flow_policy.py`. -/
structure FlowStackFrame where
  flowId : String
  stepId : String
  frameType : StackFrameType
deriving DecidableEq

/-- `FlowStackFrame.as_dict`. -/
def FlowStackFrame.asDict (f : FlowStackFrame) : JValue :=
  .jobj
    [("flow_id", .jstr f.flowId), ("step_id", .jstr f.stepId),
      ("frame_type", .jstr f.frameType.toStr)]

/-- `FlowStackFrame.from_dict`: requires the `flow_id` and `step_id` keys
(a missing key raises) and parses the optional `frame_type`. -/
def FlowStackFrame.fromDict (data : JValue) : Except String FlowStackFrame := do
  let fields := match data with | .jobj l => l | _ => []
  let flowId ←
    match fields.lookup "flow_id" with
    | some (.jstr s) => pure s
    | _ => .error "KeyError: flow_id"
  let stepId ←
    match fields.lookup "step_id" with
    | some (.jstr s) => pure s
    | _ => .error "KeyError: step_id"
  let frameType ←
    StackFrameType.fromStr
      (match fields.lookup "frame_type" with
        | some (.jstr s) => some s
        | _ => none)
  return ⟨flowId, stepId, frameType⟩

/-- `FlowStack` from `flow_policy.py`: last frame is the top. -/
structure FlowStack where
  frames : List FlowStackFrame
deriving DecidableEq

/-- `FlowStack.is_empty`. -/
def FlowStack.isEmpty (s : FlowStack) : Bool :=
  s.frames.length = 0

/-- `FlowStack.push`. -/
def FlowStack.push (s : FlowStack) (f : FlowStackFrame) : FlowStack :=
  ⟨s.frames ++ [f]⟩

/-- `FlowStack.top`. -/
def FlowStack.top (s : FlowStack) : Option FlowStackFrame :=
  s.frames.getLast?

/-- `FlowStack.update`: replace the topmost frame (pop only when
non-empty, then push). -/
def FlowStack.update (s : FlowStack) (f : FlowStackFrame) : FlowStack :=
  let s1 := if !s.isEmpty then FlowStack.mk s.frames.dropLast else s
  s1.push f

/-- `FlowStack.advance_top_flow`: set the top frame's step id in place when
a top frame exists. -/
def FlowStack.advanceTopFlow (s : FlowStack) (updatedId : String) : FlowStack :=
  match s.top with
  | none => s
  | some _ =>
    ⟨s.frames.dropLast ++
      (match s.frames.getLast? with
        | some t => [{ t with stepId := updatedId }]
        | none => [])⟩

/-- `FlowStack.pop`: the popped frame and the remaining stack (`none` models
the `IndexError` on an empty list). -/
def FlowStack.pop (s : FlowStack) : Option (FlowStackFrame × FlowStack) :=
  match s.frames.getLast? with
  | some f => some (f, ⟨s.frames.dropLast⟩)
  | none => none

/-- `FlowStack.as_dict`. -/
def FlowStack.asDict (s : FlowStack) : List JValue :=
  s.frames.map FlowStackFrame.asDict

/-- `FlowStack.from_dict`. -/
def FlowStack.fromDict (data : List JValue) : Except String FlowStack := do
  let frames ← data.mapM FlowStackFrame.fromDict
  return ⟨frames⟩

/-- `FlowStack.top_flow`. -/
def FlowStack.topFlow (s : FlowStack) (flows : FlowsList) : Option Flow :=
  match s.top with
  | none => none
  | some t => flows.flowById t.flowId

/-- `FlowStack.top_flow_step`. -/
def FlowStack.topFlowStep (s : FlowStack) (flows : FlowsList) : Option FlowStep :=
  match s.top, s.topFlow flows with
  | some t, some fl => fl.stepById t.stepId
  | _, _ => none

/-- A slot object of the domain (`tracker.slots[name]`): its current and
initial value. -/
structure SlotObj where
  value : JValue
  initialValue : JValue
deriving DecidableEq

/-- The latest parsed message: intent name, entity types
(`e.get(ENTITY_ATTRIBUTE_TYPE, "")` pre-extracted) and raw text. -/
structure Message where
  intentName : Option String
  entities : List String
  text : String
deriving DecidableEq

/-- The tracker as consumed by the policy layer. -/
structure PTracker where
  latestMessage : Option Message
  latestActionName : Option String
  slots : List (String × SlotObj)
  activeLoopName : Option String
deriving DecidableEq

/-- `tracker.slots.get(name, None)`. -/
def PTracker.lookupSlot (t : PTracker) (name : String) : Option SlotObj :=
  t.slots.lookup name

/-- `tracker.get_slot(name)`: the slot's value, `None` when unknown. -/
def PTracker.getSlot (t : PTracker) (name : String) : JValue :=
  match t.lookupSlot name with
  | some s => s.value
  | none => .jnull

/-- `FlowStack.from_tracker`: parse `tracker.get_slot(FLOW_STACK_SLOT) or
[]`. -/
def FlowStack.fromTracker (t : PTracker) : Except String FlowStack :=
  FlowStack.fromDict
    (match t.getSlot FLOW_STACK_SLOT with
      | .jarr l => l
      | _ => [])

/-- Events emitted by the policy layer. -/
inductive PEvent where
  | slotSet : String → JValue → PEvent
  | activeLoop : Option String → PEvent
deriving DecidableEq

/-- `ActionPrediction` from `flow_policy.py`. Scores are exact rationals;
the source only ever uses the constants `0.0` and `1.0`. -/
structure ActionPrediction where
  actionName : Option String
  score : Rat
  metadata : Option JValue
  events : Option (List PEvent)
deriving DecidableEq

/-- Python truthiness of an optional string (`None` and `""` are falsy). -/
def optStrTruthy : Option String → Bool
  | none => false
  | some s => s ≠ ""

/-- `FlowExecutor`: the stack, the catalog (the domain is consulted only
through the abstracted predicate evaluator). -/
structure FlowExecutor where
  flowStack : FlowStack
  allFlows : FlowsList
deriving DecidableEq

/-- The if-link guard of `_select_next_step_id`: `isinstance(link,
IfFlowLink) and link.condition` and the condition evaluates truthy. -/
def isSatisfiedIfLink (condSat : String → Bool) : FlowLink → Bool
  | .ifLink _ (some c) => c ≠ "" && condSat c
  | _ => false

/-- `isinstance(link, ElseFlowLink)`. -/
def isElseLink : FlowLink → Bool
  | .elseLink _ => true
  | _ => false

/-- `_select_next_step_id` from `flow_policy.py`. `condSat` abstracts
`is_condition_satisfied(condition, tracker)` (the external predicate
language over coerced slot values); the raised `ValueError` is an
`Except.error`. -/
def selectNextStepId (current : FlowStep) (condSat : String → Bool) :
    Except String (Option String) :=
  match current.next with
  | [.staticLink t] => .ok (some t)
  | links =>
    match links.find? (isSatisfiedIfLink condSat) with
    | some l => .ok l.target
    | none =>
      match links.find? isElseLink with
      | some l => .ok l.target
      | none =>
        if !links.isEmpty then
          .error
            "No link was selected, but links are present. Links must cover all possible cases."
        else if current.id ≠ END_STEP then .ok (some END_STEP)
        else .ok none

/-- The branch-resolution rule in the amended specification's words: a step
with no links transitions to the synthetic END step (or to nothing when it
already is the End step); a step whose links are exactly one static link
takes that link; otherwise the first if-link with a truthy satisfied
condition wins, falling back to the first else-link, and resolution of a
non-empty link set with no match and no else-link fails. -/
def selectNextStepIdSpec (current : FlowStep) (condSat : String → Bool) :
    Except String (Option String) :=
  if current.next.isEmpty then
    if current.id = END_STEP then .ok none
    else .ok (some END_STEP)
  else
    match current.next with
    | [.staticLink t] => .ok (some t)
    | links =>
      match (links.filter (isSatisfiedIfLink condSat)).head? with
      | some l => .ok l.target
      | none =>
        match (links.filter isElseLink).head? with
        | some l => .ok l.target
        | none =>
          .error
            "No link was selected, but links are present. Links must cover all possible cases."

/-- `TriggerCondition.is_triggered` from `shared/core/flows/flow_step.py`. -/
def TriggerCondition.isTriggered (tc : TriggerCondition) (intent : String)
    (entities : List String) : Bool :=
  if tc.intent ≠ intent then false
  else if tc.entities.length = 0 then true
  else tc.entities.all (fun e => e ∈ entities)

/-- `UserMessageStep.is_triggered` from `shared/core/flows/flow_step.py`. -/
def userMessageTriggered (conds : List TriggerCondition) (t : PTracker) : Bool :=
  match t.latestMessage with
  | none => false
  | some m =>
    let intent := m.intentName.getD ""
    conds.any (fun tc => tc.isTriggered intent m.entities)

/-- `isinstance(step, StepThatCanStartAFlow)` together with
`step.is_triggered(tracker)`. User-message steps follow the snapshot's
`flow_step.py`; the entry-prompt step's trigger predicate lives outside the
snapshot and is abstracted as `entryTriggered`, over which the theorems
quantify. -/
def stepIsTriggered (st : FlowStep) (t : PTracker)
    (entryTriggered : FlowStep → PTracker → Bool) : Bool :=
  match st.kind with
  | .userMessage conds => userMessageTriggered conds t
  | .entryPrompt => entryTriggered st t
  | _ => false

/-- Whether a step can start a flow (`isinstance(first_step,
StepThatCanStartAFlow)`). -/
def stepCanStartFlow (st : FlowStep) : Bool :=
  match st.kind with
  | .userMessage _ => true
  | .entryPrompt => true
  | _ => false

/-- The per-flow test of the `find_startable_flow` loop. -/
def flowIsStartable (t : PTracker)
    (entryTriggered : FlowStep → PTracker → Bool) (flow : Flow) : Bool :=
  match flow.firstStepInFlow with
  | none => false
  | some st => stepCanStartFlow st && stepIsTriggered st t entryTriggered

/-- `FlowExecutor.find_startable_flow` from `flow_policy.py`. -/
def findStartableFlow (ex : FlowExecutor) (t : PTracker)
    (entryTriggered : FlowStep → PTracker → Bool) : Option Flow :=
  if t.latestMessage = none || t.latestActionName ≠ some ACTION_LISTEN_NAME then
    none
  else ex.allFlows.underlyingFlows.find? (flowIsStartable t entryTriggered)

/-- `FlowExecutor.consider_flow_switch` from `flow_policy.py`. -/
def considerFlowSwitch (ex : FlowExecutor) (t : PTracker)
    (entryTriggered : FlowStep → PTracker → Bool) : ActionPrediction :=
  match findStartableFlow ex t entryTriggered with
  | some newFlow => ⟨some (FLOW_PRE ++ newFlow.id), 1, none, none⟩
  | none => ⟨none, 0, none, none⟩

/-- `FlowExecutor.should_flow_be_cancelled` from `flow_policy.py`. -/
def shouldFlowBeCancelled (t : PTracker) : Bool :=
  match t.latestMessage with
  | none => false
  | some m =>
    if t.latestActionName ≠ some ACTION_LISTEN_NAME then false
    else m.intentName = some CANCEL_FLOW_INTENT

/-- `FlowExecutor.advance_flows` from `flow_policy.py`. `selectNext`
abstracts `_select_next_action` (the executor loop, which this claim set
never reaches); it returns the updated executor and its prediction. The
source mutates `self.flow_stack`; the updated executor is returned. -/
def advanceFlows (ex : FlowExecutor) (t : PTracker)
    (entryTriggered : FlowStep → PTracker → Bool)
    (selectNext : FlowExecutor → PTracker →
      Except String (FlowExecutor × ActionPrediction)) :
    Except String (FlowExecutor × ActionPrediction) :=
  let prediction := considerFlowSwitch ex t entryTriggered
  if optStrTruthy prediction.actionName then
    .ok (ex, prediction)
  else if ex.flowStack.isEmpty then
    .ok (ex, ⟨none, 0, none, none⟩)
  else if shouldFlowBeCancelled t && !ex.flowStack.isEmpty then
    match ex.flowStack.pop with
    | some (topFrame, rest) =>
      .ok (⟨rest, ex.allFlows⟩,
        ⟨some (FLOW_PRE ++ "pattern_cancel_flow"), 1,
          some (.jobj [("slots", .jobj [(CANCELLED_FLOW_SLOT, .jstr topFrame.flowId)])]),
          some [.slotSet FLOW_STACK_SLOT (.jarr rest.asDict)]⟩)
    | none => .error "IndexError: pop from empty list"
  else
    match selectNext ex t with
    | .error e => .error e
    | .ok res =>
      match FlowStack.fromTracker t with
      | .error e => .error e
      | .ok stored =>
        if stored.asDict ≠ res.1.flowStack.asDict then
          .ok (res.1,
            { res.2 with
                events :=
                  some ((res.2.events.getD []) ++
                    [.slotSet FLOW_STACK_SLOT (.jarr res.1.flowStack.asDict)]) })
        else .ok res

/-- `FlowExecutor._reset_scoped_slots` from `flow_policy.py`: a slot-set to
the initial value for every flow-scoped question step of the ending flow. -/
def resetScopedSlots (currentFlow : Flow) (t : PTracker) : List PEvent :=
  currentFlow.steps.filterMap
    (fun st =>
      match st.kind with
      | .question q .flow _ =>
        some (.slotSet q
          (match t.lookupSlot q with
            | some s => s.initialValue
            | none => .jnull))
      | _ => none)

/-- Modelled from the spec: `flow.previously_asked_questions(step_id)` —
the question steps "previously executed" before the given step (the flow
module of the policy layer is not in the snapshot). -/
def Flow.previouslyAskedQuestions (f : Flow) (stepId : String) : List FlowStep :=
  (f.steps.takeWhile (fun s => s.id ≠ stepId)).filter
    (fun s => s.question?.isSome)

/-- `FlowExecutor._find_earliest_updated_question` from `flow_policy.py`. -/
def findEarliestUpdatedQuestion (currentStep : FlowStep) (flow : Flow)
    (updatedSlots : List String) : Option FlowStep :=
  (flow.previouslyAskedQuestions currentStep.id).reverse.find?
    (fun qs =>
      match qs.question? with
      | some q => q ∈ updatedSlots
      | none => false)

/-- `FlowExecutor._correct_flow_position` from `flow_policy.py`: rewind the
top frame to the earliest updated question, when one exists. -/
def correctFlowPosition (ex : FlowExecutor) (newlySetSlots : List String)
    (step : FlowStep) (flow : Flow) : FlowExecutor :=
  match findEarliestUpdatedQuestion step flow newlySetSlots with
  | some resetPoint => { ex with flowStack := ex.flowStack.advanceTopFlow resetPoint.id }
  | none => ex

/-- The flow name written into the continue-interrupted metadata:
`previous_flow.name or previous_flow.id`. -/
def flowDisplayName (f : Flow) : String :=
  match f.name with
  | some n => if n = "" then f.id else n
  | none => f.id

/-- `FlowExecutor._run_step` from `flow_policy.py`. `generate` abstracts the
prompt rendering plus `llm.generate_text_openai_chat` external call of the
generate-response branch; `FlowException`s are `Except.error`s. The source
mutates `self.flow_stack` (link push, end pop, correction rewind); the
updated executor is returned. -/
def runStep (ex : FlowExecutor) (flow : Flow) (step : FlowStep) (t : PTracker)
    (generate : String → PTracker → String) :
    Except String (FlowExecutor × ActionPrediction) :=
  match step.kind with
  | .question q _ skipIfFilled =>
    let slotObj := t.lookupSlot q
    let initialValue := match slotObj with | some s => s.initialValue | none => .jnull
    let slotValue := match slotObj with | some s => s.value | none => .jnull
    if skipIfFilled ∧ slotValue ≠ initialValue then
      .ok (ex, ⟨none, 0, none, none⟩)
    else if slotValue ≠ initialValue then
      .ok (ex, ⟨some ("question_" ++ q), 1, none, some [.slotSet q initialValue]⟩)
    else
      .ok (ex, ⟨some ("question_" ++ q), 1, none, none⟩)
  | .action a =>
    if a = "" then .error "Action not specified for step"
    else .ok (ex, ⟨some a, 1, none, none⟩)
  | .link l =>
    let ex2 : FlowExecutor :=
      ⟨ex.flowStack.push ⟨l, START_STEP, .link⟩, ex.allFlows⟩
    if optStrTruthy t.activeLoopName then
      .ok (ex2, ⟨none, 0, none, some [.activeLoop none]⟩)
    else
      .ok (ex2, ⟨none, 0, none, none⟩)
  | .setSlots slots =>
    .ok (ex, ⟨none, 0, none, some (slots.map (fun p => .slotSet p.1 p.2))⟩)
  | .userMessage _ => .ok (ex, ⟨none, 0, none, none⟩)
  | .entryPrompt => .ok (ex, ⟨none, 0, none, none⟩)
  | .generateResponse prompt =>
    let generated := generate prompt t
    .ok (ex,
      ⟨some ACTION_SEND_TEXT, 1,
        some (.jobj [("message", .jobj [("text", .jstr generated)])]), none⟩)
  | .endInternal =>
    let events := resetScopedSlots flow t
    match ex.flowStack.pop with
    | none => .error "IndexError: pop from empty list"
    | some (currentFrame, rest) =>
      let ex2 : FlowExecutor := ⟨rest, ex.allFlows⟩
      let previousFlow := rest.topFlow ex.allFlows
      let previousFlowStep := rest.topFlowStep ex.allFlows
      if currentFrame.frameType = .interrupt then
        let previousFlowName : JValue :=
          match previousFlow with
          | some pf => .jstr (flowDisplayName pf)
          | none => .jnull
        .ok (ex2,
          ⟨some (FLOW_PRE ++ "pattern_continue_interrupted"), 1,
            some (.jobj [("slots", .jobj [(PREVIOUS_FLOW_SLOT, previousFlowName)])]),
            some events⟩)
      else
        match previousFlow, previousFlowStep with
        | some pf, some ps =>
          if currentFrame.frameType = .correction then
            let correctedSlots := t.getSlot CORRECTED_SLOTS_SLOT
            if correctedSlots.truthy then
              .ok (correctFlowPosition ex2 correctedSlots.strings ps pf,
                ⟨none, 0, none, some events⟩)
            else
              .ok (ex2, ⟨none, 0, none, some events⟩)
          else
            .ok (ex2, ⟨none, 0, none, some events⟩)
        | _, _ => .ok (ex2, ⟨none, 0, none, some events⟩)
  | _ => .error "Unknown flow step type"

end Policy

/-! ## Theorems -/

theorem filter_head?_eq_find? {α : Type} (p : α → Bool) (l : List α) :
    (l.filter p).head? = l.find? p := by
  induction l with
  | nil => rfl
  | cons x xs ih =>
    by_cases h : p x = true
    · simp [List.filter_cons, List.find?_cons, h]
    · simp only [Bool.not_eq_true] at h
      simp [List.filter_cons, List.find?_cons, h, ih]

namespace Policy

/-- **C2** (amended): `_select_next_step_id` behaves exactly as the amended
branch-resolution rule describes: first satisfied if-link in declaration
order, else the else-link, a lone static link is taken directly, a
non-empty link set with no match and no else raises, and a step without
links transitions to the synthetic END step unless it already is the End
step, which has no next step. -/
theorem select_next_step_id_matches_spec :
    ∀ (current : FlowStep) (condSat : String → Bool),
      selectNextStepId current condSat = selectNextStepIdSpec current condSat := by
  intro current condSat
  rcases hn : current.next with _ | ⟨x, _ | ⟨y, rest⟩⟩
  · by_cases hid : current.id = END_STEP <;>
      simp [selectNextStepId, selectNextStepIdSpec, hn, hid]
  · cases x with
    | staticLink t => simp [selectNextStepId, selectNextStepIdSpec, hn]
    | ifLink t c =>
      simp [selectNextStepId, selectNextStepIdSpec, hn, filter_head?_eq_find?]
    | elseLink t =>
      simp [selectNextStepId, selectNextStepIdSpec, hn, filter_head?_eq_find?]
  · simp [selectNextStepId, selectNextStepIdSpec, hn, filter_head?_eq_find?]

/-- **C10**: on an empty `FlowStack`, `advance_top_flow` is a harmless
no-op for every step id (the stack stays empty, nothing is raised) and
`update` pushes the given frame, leaving the single-frame stack — neither
operation fails on the empty stack. -/
theorem empty_stack_advance_and_update_safe :
    ∀ (stepId : String) (frame : FlowStackFrame),
      FlowStack.advanceTopFlow ⟨[]⟩ stepId = ⟨[]⟩ ∧
        FlowStack.update ⟨[]⟩ frame = ⟨[frame]⟩ :=
  fun _ _ => ⟨rfl, rfl⟩

/-- **C2** (counterexample): a step whose outgoing links are exactly one
static link: links are present, no if-link matches and no else-link exists,
yet `_select_next_step_id` does not raise — it returns the static link's
target. -/
theorem select_next_step_single_static_no_error :
    selectNextStepId ⟨"s", .action "a", [.staticLink "t"]⟩ (fun _ => false)
        = .ok (some "t") ∧
      (selectNextStepId ⟨"s", .action "a", [.staticLink "t"]⟩
          (fun _ => false)).isOk = true :=
  ⟨rfl, rfl⟩

theorem flow_pre_append_ne_empty (s : String) : FLOW_PRE ++ s ≠ "" := by
  intro h
  have hlen := congrArg String.length h
  rw [String.length_append] at hlen
  rw [show (FLOW_PRE : String).length = 5 from rfl] at hlen
  rw [show ("" : String).length = 0 from rfl] at hlen
  omega

/-- **C8**: with the latest action being the listen action and the latest
message triggering some flow's trigger step, `advance_flows` returns the
start action for the (first) triggered flow — the flow prefix plus its id —
with score 1.0 before advancing or cancelling anything: no events are
attached (so no stack-update is emitted), no metadata, and the executor
(hence its stack) is returned unchanged, for every abstracted executor loop
and whatever cancellation intent the message carries. -/
theorem advance_flows_auto_start_precedence
    (ex : FlowExecutor) (t : PTracker)
    (entryTriggered : FlowStep → PTracker → Bool)
    (selectNext : FlowExecutor → PTracker →
      Except String (FlowExecutor × ActionPrediction))
    (fl : Flow)
    (hmsg : t.latestMessage ≠ none)
    (hlisten : t.latestActionName = some ACTION_LISTEN_NAME)
    (hfind : ex.allFlows.underlyingFlows.find? (flowIsStartable t entryTriggered)
      = some fl) :
    findStartableFlow ex t entryTriggered = some fl ∧
      advanceFlows ex t entryTriggered selectNext
        = .ok (ex, ⟨some (FLOW_PRE ++ fl.id), 1, none, none⟩) := by
  have hstart : findStartableFlow ex t entryTriggered = some fl := by
    simp [findStartableFlow, hmsg, hlisten, hfind]
  have hswitch : considerFlowSwitch ex t entryTriggered
      = ⟨some (FLOW_PRE ++ fl.id), 1, none, none⟩ := by
    simp [considerFlowSwitch, hstart]
  refine ⟨hstart, ?_⟩
  unfold advanceFlows
  rw [hswitch]
  rw [if_pos ?_]
  simp [optStrTruthy, flow_pre_append_ne_empty fl.id]

/-- Witness for C8: an empty stack, a message whose intent matches flow
`"bk"`'s trigger step. -/
theorem advance_flows_auto_start_precedence_witness :
    findStartableFlow
        ⟨⟨[]⟩, ⟨[⟨"bk", none, [⟨"t1", .userMessage [⟨"book", []⟩], []⟩]⟩]⟩⟩
        ⟨some ⟨some "book", [], "hi"⟩, some "action_listen", [], none⟩
        (fun _ _ => false)
      = some ⟨"bk", none, [⟨"t1", .userMessage [⟨"book", []⟩], []⟩]⟩ ∧
      advanceFlows
          ⟨⟨[]⟩, ⟨[⟨"bk", none, [⟨"t1", .userMessage [⟨"book", []⟩], []⟩]⟩]⟩⟩
          ⟨some ⟨some "book", [], "hi"⟩, some "action_listen", [], none⟩
          (fun _ _ => false) (fun ex _ => .ok (ex, ⟨none, 0, none, none⟩))
        = .ok (⟨⟨[]⟩, ⟨[⟨"bk", none, [⟨"t1", .userMessage [⟨"book", []⟩], []⟩]⟩]⟩⟩,
            ⟨some (FLOW_PRE ++ "bk"), 1, none, none⟩) :=
  advance_flows_auto_start_precedence
    ⟨⟨[]⟩, ⟨[⟨"bk", none, [⟨"t1", .userMessage [⟨"book", []⟩], []⟩]⟩]⟩⟩
    ⟨some ⟨some "book", [], "hi"⟩, some "action_listen", [], none⟩
    (fun _ _ => false) (fun ex _ => .ok (ex, ⟨none, 0, none, none⟩))
    ⟨"bk", none, [⟨"t1", .userMessage [⟨"book", []⟩], []⟩]⟩
    (by intro h; exact Option.noConfusion h) rfl rfl

/-- **C9**: running an End step while the top frame has frame type
interrupt pops that frame and returns the continue-interrupted pattern
action with score 1.0; its metadata sets the previous-flow slot to the
now-exposed frame's flow name (falling back to the flow id when the flow
has no name, via `flowDisplayName`), and its events are the scoped slot
resets of the ending flow — which contain a slot-reset to the initial value
for every flow-scoped question step of that flow. -/
theorem run_end_step_interrupt_continues
    (ex : FlowExecutor) (flow : Flow) (step : FlowStep) (t : PTracker)
    (generate : String → PTracker → String)
    (frame : FlowStackFrame) (rest : FlowStack) (pf : Flow)
    (hstep : step.kind = .endInternal)
    (hpop : ex.flowStack.pop = some (frame, rest))
    (hint : frame.frameType = .interrupt)
    (hprev : rest.topFlow ex.allFlows = some pf) :
    runStep ex flow step t generate
        = .ok (⟨rest, ex.allFlows⟩,
            ⟨some (FLOW_PRE ++ "pattern_continue_interrupted"), 1,
              some (.jobj
                [("slots", .jobj [(PREVIOUS_FLOW_SLOT, .jstr (flowDisplayName pf))])]),
              some (resetScopedSlots flow t)⟩) ∧
      (∀ st ∈ flow.steps, ∀ q skf, st.kind = .question q .flow skf →
        PEvent.slotSet q
            (match t.lookupSlot q with
              | some s => s.initialValue
              | none => .jnull) ∈ resetScopedSlots flow t) := by
  constructor
  · rcases step with ⟨sid, skind, snext⟩
    simp only at hstep
    subst hstep
    simp only [runStep]
    rw [hpop]
    simp [hint, hprev]
  · intro st hmem q skf hkind
    unfold resetScopedSlots
    apply List.mem_filterMap.mpr
    exact ⟨st, hmem, by rw [hkind]⟩

/-- Witness for C9: ending an interrupt flow `"intr"` (with one flow-scoped
question for slot `"sx"`) exposes frame `"bk"` whose flow is named
`"Book"`. -/
theorem run_end_step_interrupt_continues_witness :
    runStep
        ⟨⟨[⟨"bk", "p1", .regular⟩, ⟨"intr", "END", .interrupt⟩]⟩,
          ⟨[⟨"bk", some "Book", []⟩,
            ⟨"intr", none, [⟨"q1", .question "sx" .flow false, []⟩]⟩]⟩⟩
        ⟨"intr", none, [⟨"q1", .question "sx" .flow false, []⟩]⟩
        ⟨"END", .endInternal, []⟩
        ⟨some ⟨some "i", [], "hi"⟩, some "action_listen",
          [("sx", ⟨.jstr "5", .jnull⟩)], none⟩
        (fun _ _ => "")
      = .ok (⟨⟨[⟨"bk", "p1", .regular⟩]⟩,
            ⟨[⟨"bk", some "Book", []⟩,
              ⟨"intr", none, [⟨"q1", .question "sx" .flow false, []⟩]⟩]⟩⟩,
          ⟨some (FLOW_PRE ++ "pattern_continue_interrupted"), 1,
            some (.jobj [("slots", .jobj [(PREVIOUS_FLOW_SLOT, .jstr "Book")])]),
            some (resetScopedSlots
              ⟨"intr", none, [⟨"q1", .question "sx" .flow false, []⟩]⟩
              ⟨some ⟨some "i", [], "hi"⟩, some "action_listen",
                [("sx", ⟨.jstr "5", .jnull⟩)], none⟩)⟩) :=
  (run_end_step_interrupt_continues
    ⟨⟨[⟨"bk", "p1", .regular⟩, ⟨"intr", "END", .interrupt⟩]⟩,
      ⟨[⟨"bk", some "Book", []⟩,
        ⟨"intr", none, [⟨"q1", .question "sx" .flow false, []⟩]⟩]⟩⟩
    ⟨"intr", none, [⟨"q1", .question "sx" .flow false, []⟩]⟩
    ⟨"END", .endInternal, []⟩
    ⟨some ⟨some "i", [], "hi"⟩, some "action_listen",
      [("sx", ⟨.jstr "5", .jnull⟩)], none⟩
    (fun _ _ => "")
    ⟨"intr", "END", .interrupt⟩ ⟨[⟨"bk", "p1", .regular⟩]⟩
    ⟨"bk", some "Book", []⟩
    rfl rfl rfl rfl).1

end Policy

namespace Cdu

/-- **C1** (code bug): `clean_up_commands` passes raw `CorrectSlotsCommand`s
through its final else-branch unchanged, so an input already holding two of
them keeps both, and `validate_state_of_commands` applied to the cleanup
output raises — against the validator's own docstring, which promises the
invariants hold "no matter the commands that are provided". -/
theorem cleanup_output_can_fail_validation :
    cleanUpCommands [.correctSlots [], .correctSlots []] ⟨[]⟩ ⟨[]⟩ []
        = [.correctSlots [], .correctSlots []] ∧
      validateStateOfCommands
          (cleanUpCommands [.correctSlots [], .correctSlots []] ⟨[]⟩ ⟨[]⟩ [])
        = .error "There can only be one correct slots command." :=
  ⟨rfl, rfl⟩

/-- **C6** (counterexample): two distinguishable free-form-answer commands
leave cleanup in reversed relative order — the chitchat answer precedes the
knowledge answer in the input but follows it in the output. -/
theorem free_form_answer_order_not_preserved :
    cleanUpCommands [.chitChatAnswer, .knowledgeAnswer] ⟨[]⟩ ⟨[]⟩ []
        = [.knowledgeAnswer, .chitChatAnswer] ∧
      [Command.knowledgeAnswer, Command.chitChatAnswer]
        ≠ [Command.chitChatAnswer, Command.knowledgeAnswer] :=
  ⟨rfl, by decide⟩

theorem appendCorrectedSlot_append_of_forall_ffa (a r : List Command)
    (c : CorrectedSlot) (ha : ∀ x ∈ a, x.isFreeFormAnswer = true) :
    appendCorrectedSlot (a ++ r) c = a ++ appendCorrectedSlot r c := by
  induction a with
  | nil => rfl
  | cons x xs ih =>
    have hx := ha x (List.mem_cons_self x xs)
    have ihx := ih (fun y hy => ha y (List.mem_cons_of_mem x hy))
    cases x <;> simp [Command.isFreeFormAnswer] at hx <;>
      simp [appendCorrectedSlot, ihx]

theorem appendCorrectedSlot_forall_non_ffa (r : List Command)
    (c : CorrectedSlot) (hr : ∀ x ∈ r, x.isFreeFormAnswer = false) :
    ∀ x ∈ appendCorrectedSlot r c, x.isFreeFormAnswer = false := by
  induction r with
  | nil =>
    intro x hx
    simp [appendCorrectedSlot] at hx
    simp [hx, Command.isFreeFormAnswer]
  | cons y ys ih =>
    have hy := hr y (List.mem_cons_self y ys)
    have ihy := ih (fun z hz => hr z (List.mem_cons_of_mem y hz))
    intro x hx
    cases y with
    | correctSlots sl =>
      simp [appendCorrectedSlot] at hx
      rcases hx with h | h
      · simp [h, Command.isFreeFormAnswer]
      · exact hr x (List.mem_cons_of_mem _ h)
    | chitChatAnswer => simp [Command.isFreeFormAnswer] at hy
    | knowledgeAnswer => simp [Command.isFreeFormAnswer] at hy
    | startFlow f =>
      simp [appendCorrectedSlot] at hx
      rcases hx with h | h
      · simp [h, Command.isFreeFormAnswer]
      · exact ihy x h
    | cancelFlow =>
      simp [appendCorrectedSlot] at hx
      rcases hx with h | h
      · simp [h, Command.isFreeFormAnswer]
      · exact ihy x h
    | setSlot n v =>
      simp [appendCorrectedSlot] at hx
      rcases hx with h | h
      · simp [h, Command.isFreeFormAnswer]
      · exact ihy x h
    | clarify o =>
      simp [appendCorrectedSlot] at hx
      rcases hx with h | h
      · simp [h, Command.isFreeFormAnswer]
      · exact ihy x h
    | handleCodeChange =>
      simp [appendCorrectedSlot] at hx
      rcases hx with h | h
      · simp [h, Command.isFreeFormAnswer]
      · exact ihy x h

theorem cleanUpSlotCommand_shape (a r : List Command) (n : String)
    (v : SlotValue) (stack : DialogueStack) (allFlows : FlowsList)
    (slotsSoFar : List String)
    (ha : ∀ x ∈ a, x.isFreeFormAnswer = true)
    (hr : ∀ x ∈ r, x.isFreeFormAnswer = false) :
    ∃ r2, cleanUpSlotCommand (a ++ r) n v stack allFlows slotsSoFar = a ++ r2
      ∧ ∀ x ∈ r2, x.isFreeFormAnswer = false := by
  have hset : ∀ x ∈ r ++ [Command.setSlot n v], x.isFreeFormAnswer = false := by
    intro x hx
    rcases List.mem_append.mp hx with h | h
    · exact hr x h
    · simp at h; simp [h, Command.isFreeFormAnswer]
  by_cases hmem : n ∈ slotsSoFar
  · rcases hcs : getCurrentCollectStep stack allFlows with _ | cs
    · by_cases hl : (alreadyCorrectedSlots stack).lookup n = some v
      · exact ⟨r, by simp [cleanUpSlotCommand, hmem, hcs, hl], hr⟩
      · refine ⟨appendCorrectedSlot r ⟨n, v⟩, ?_,
          appendCorrectedSlot_forall_non_ffa r _ hr⟩
        simp [cleanUpSlotCommand, hmem, hcs, hl,
          appendCorrectedSlot_append_of_forall_ffa a r _ ha]
    · by_cases hask : cs.collectSlot? = some n
      · exact ⟨r ++ [.setSlot n v],
          by simp [cleanUpSlotCommand, hmem, hcs, hask], hset⟩
      · by_cases hl : (alreadyCorrectedSlots stack).lookup n = some v
        · exact ⟨r, by simp [cleanUpSlotCommand, hmem, hcs, hask, hl], hr⟩
        · refine ⟨appendCorrectedSlot r ⟨n, v⟩, ?_,
            appendCorrectedSlot_forall_non_ffa r _ hr⟩
          simp [cleanUpSlotCommand, hmem, hcs, hask, hl,
            appendCorrectedSlot_append_of_forall_ffa a r _ ha]
  · exact ⟨r ++ [.setSlot n v], by simp [cleanUpSlotCommand, hmem], hset⟩

theorem cleanup_fold_shape (orig : List Command) (stack : DialogueStack)
    (allFlows : FlowsList) (slotsSoFar : List String) :
    ∀ (cmds a r : List Command),
      (∀ x ∈ a, x.isFreeFormAnswer = true) →
      (∀ x ∈ r, x.isFreeFormAnswer = false) →
      ∃ r2,
        cmds.foldl (cleanUpOne orig stack allFlows slotsSoFar) (a ++ r)
            = ((cmds.filter Command.isFreeFormAnswer).reverse ++ a) ++ r2
          ∧ ∀ x ∈ r2, x.isFreeFormAnswer = false := by
  intro cmds
  induction cmds with
  | nil =>
    intro a r ha hr
    exact ⟨r, by simp, hr⟩
  | cons c rest ih =>
    intro a r ha hr
    have hpush : ∀ (d : Command), d.isFreeFormAnswer = false →
        ∀ x ∈ r ++ [d], x.isFreeFormAnswer = false := by
      intro d hd x hx
      rcases List.mem_append.mp hx with h | h
      · exact hr x h
      · simp at h; rw [h]; exact hd
    cases c with
    | setSlot n v =>
      obtain ⟨r2, heq, hr2⟩ :=
        cleanUpSlotCommand_shape a r n v stack allFlows slotsSoFar ha hr
      obtain ⟨r3, heq3, hr3⟩ := ih a r2 ha hr2
      refine ⟨r3, ?_, hr3⟩
      simp only [List.foldl_cons, cleanUpOne]
      rw [heq, heq3]
      simp [List.filter_cons, Command.isFreeFormAnswer]
    | cancelFlow =>
      by_cases hany : (a ++ r).any Command.isCancelFlow
      · obtain ⟨r3, heq3, hr3⟩ := ih a r ha hr
        refine ⟨r3, ?_, hr3⟩
        simp only [List.foldl_cons, cleanUpOne, if_pos hany]
        rw [heq3]
        simp [List.filter_cons, Command.isFreeFormAnswer]
      · obtain ⟨r3, heq3, hr3⟩ := ih a (r ++ [.cancelFlow]) ha (hpush Command.cancelFlow rfl)
        refine ⟨r3, ?_, hr3⟩
        simp only [List.foldl_cons, cleanUpOne, if_neg hany]
        rw [show (a ++ r) ++ [Command.cancelFlow]
            = a ++ (r ++ [Command.cancelFlow]) by simp]
        rw [heq3]
        simp [List.filter_cons, Command.isFreeFormAnswer]
    | chitChatAnswer =>
      obtain ⟨r3, heq3, hr3⟩ := ih (Command.chitChatAnswer :: a) r
        (by
          intro x hx
          rcases List.mem_cons.mp hx with h | h
          · rw [h]; rfl
          · exact ha x h)
        hr
      refine ⟨r3, ?_, hr3⟩
      simp only [List.foldl_cons, cleanUpOne]
      rw [show Command.chitChatAnswer :: (a ++ r)
          = (Command.chitChatAnswer :: a) ++ r by simp]
      rw [heq3]
      simp [List.filter_cons, Command.isFreeFormAnswer]
    | knowledgeAnswer =>
      obtain ⟨r3, heq3, hr3⟩ := ih (Command.knowledgeAnswer :: a) r
        (by
          intro x hx
          rcases List.mem_cons.mp hx with h | h
          · rw [h]; rfl
          · exact ha x h)
        hr
      refine ⟨r3, ?_, hr3⟩
      simp only [List.foldl_cons, cleanUpOne]
      rw [show Command.knowledgeAnswer :: (a ++ r)
          = (Command.knowledgeAnswer :: a) ++ r by simp]
      rw [heq3]
      simp [List.filter_cons, Command.isFreeFormAnswer]
    | clarify opts =>
      have hout :
          cleanUpOne orig stack allFlows slotsSoFar (a ++ r) (.clarify opts)
              = a ++ r ∨
            cleanUpOne orig stack allFlows slotsSoFar (a ++ r) (.clarify opts)
              = a ++ (r ++ [.clarify opts]) := by
        simp only [cleanUpOne]
        by_cases h1 : orig.length > 1
        · rw [if_pos h1]
          by_cases h2 : orig.all Command.isClarify ∧ (a ++ r).length = 0
          · right
            rw [if_pos (by simp [h2.1, h2.2])]
            simp
          · left
            rw [if_neg ?_]
            intro hcontra
            simp only [Bool.and_eq_true, decide_eq_true_eq] at hcontra
            exact h2 ⟨hcontra.1, hcontra.2⟩
        · rw [if_neg h1]
          right; simp
      rcases hout with h | h
      · obtain ⟨r3, heq3, hr3⟩ := ih a r ha hr
        refine ⟨r3, ?_, hr3⟩
        simp only [List.foldl_cons]
        rw [h, heq3]
        simp [List.filter_cons, Command.isFreeFormAnswer]
      · obtain ⟨r3, heq3, hr3⟩ := ih a (r ++ [.clarify opts]) ha (hpush (Command.clarify opts) rfl)
        refine ⟨r3, ?_, hr3⟩
        simp only [List.foldl_cons]
        rw [h, heq3]
        simp [List.filter_cons, Command.isFreeFormAnswer]
    | startFlow f =>
      obtain ⟨r3, heq3, hr3⟩ := ih a (r ++ [.startFlow f]) ha (hpush (Command.startFlow f) rfl)
      refine ⟨r3, ?_, hr3⟩
      simp only [List.foldl_cons, cleanUpOne]
      rw [show (a ++ r) ++ [Command.startFlow f]
          = a ++ (r ++ [Command.startFlow f]) by simp]
      rw [heq3]
      simp [List.filter_cons, Command.isFreeFormAnswer]
    | correctSlots sl =>
      obtain ⟨r3, heq3, hr3⟩ := ih a (r ++ [.correctSlots sl]) ha (hpush (Command.correctSlots sl) rfl)
      refine ⟨r3, ?_, hr3⟩
      simp only [List.foldl_cons, cleanUpOne]
      rw [show (a ++ r) ++ [Command.correctSlots sl]
          = a ++ (r ++ [Command.correctSlots sl]) by simp]
      rw [heq3]
      simp [List.filter_cons, Command.isFreeFormAnswer]
    | handleCodeChange =>
      obtain ⟨r3, heq3, hr3⟩ := ih a (r ++ [.handleCodeChange]) ha (hpush Command.handleCodeChange rfl)
      refine ⟨r3, ?_, hr3⟩
      simp only [List.foldl_cons, cleanUpOne]
      rw [show (a ++ r) ++ [Command.handleCodeChange]
          = a ++ (r ++ [Command.handleCodeChange]) by simp]
      rw [heq3]
      simp [List.filter_cons, Command.isFreeFormAnswer]

/-- **C6** (amended): cleanup moves every free-form-answer command to the
front of the output in *reversed* relative order — the last free-form
answer of the input becomes the first element of the output — so that the
pre-application reversal of the cleaned list executes them in their
original order; everything after the free-form block is not a free-form
answer. -/
theorem free_form_answers_moved_to_front :
    ∀ (commands : List Command) (stack : DialogueStack) (allFlows : FlowsList)
      (slotsSoFar : List String),
      ∃ rest,
        cleanUpCommands commands stack allFlows slotsSoFar
            = (commands.filter Command.isFreeFormAnswer).reverse ++ rest
          ∧ ∀ x ∈ rest, x.isFreeFormAnswer = false := by
  intro commands stack allFlows slotsSoFar
  obtain ⟨r2, heq, hr2⟩ :=
    cleanup_fold_shape commands stack allFlows slotsSoFar commands [] []
      (by intro x hx; cases hx) (by intro x hx; cases hx)
  refine ⟨r2, ?_, hr2⟩
  unfold cleanUpCommands
  simpa using heq

theorem cleanUpSlotCommand_drop (clean : List Command) (x : String)
    (v : SlotValue) (stack : DialogueStack) (allFlows : FlowsList)
    (slotsSoFar : List String) (hFilled : x ∈ slotsSoFar)
    (hNotAsking : ∀ cs, getCurrentCollectStep stack allFlows = some cs →
      cs.collectSlot? ≠ some x)
    (hPending : (alreadyCorrectedSlots stack).lookup x = some v) :
    cleanUpSlotCommand clean x v stack allFlows slotsSoFar = clean := by
  rcases hcs : getCurrentCollectStep stack allFlows with _ | cs
  · simp [cleanUpSlotCommand, hFilled, hcs, hPending]
  · have hne := hNotAsking cs hcs
    simp [cleanUpSlotCommand, hFilled, hcs, hne, hPending]

theorem cleanUpSlotCommand_convert (clean : List Command) (x : String)
    (v : SlotValue) (stack : DialogueStack) (allFlows : FlowsList)
    (slotsSoFar : List String) (hFilled : x ∈ slotsSoFar)
    (hNotAsking : ∀ cs, getCurrentCollectStep stack allFlows = some cs →
      cs.collectSlot? ≠ some x)
    (hNotPending : (alreadyCorrectedSlots stack).lookup x ≠ some v) :
    cleanUpSlotCommand clean x v stack allFlows slotsSoFar
      = appendCorrectedSlot clean ⟨x, v⟩ := by
  rcases hcs : getCurrentCollectStep stack allFlows with _ | cs
  · simp [cleanUpSlotCommand, hFilled, hcs, hNotPending]
  · have hne := hNotAsking cs hcs
    simp [cleanUpSlotCommand, hFilled, hcs, hne, hNotPending]

/-- **C7** (amended): a `SetSlotCommand` whose slot was already filled for
the active flow, whose proposed value equals the pending correction for the
slot in the top correction-pattern frame, *and which the currently active
collect step is not asking for*, is dropped by cleanup: the returned list
is exactly the commands accumulated so far. -/
theorem set_slot_pending_correction_dropped
    (commandsSoFar : List Command) (x : String) (v : SlotValue)
    (stack : DialogueStack) (allFlows : FlowsList) (slotsSoFar : List String)
    (hFilled : x ∈ slotsSoFar)
    (hNotAsking : ∀ cs, getCurrentCollectStep stack allFlows = some cs →
      cs.collectSlot? ≠ some x)
    (hPending : (alreadyCorrectedSlots stack).lookup x = some v) :
    cleanUpSlotCommand commandsSoFar x v stack allFlows slotsSoFar
      = commandsSoFar :=
  cleanUpSlotCommand_drop commandsSoFar x v stack allFlows slotsSoFar
    hFilled hNotAsking hPending

/-- Witness for the amended C7 theorem: a concrete stack whose top flow
frame is a correction with pending `x ↦ "v"`, no active collect step. -/
theorem set_slot_pending_correction_dropped_witness :
    cleanUpSlotCommand [] "x" (.vstr "v")
        ⟨[.correction ⟨"pc", "s0", [("x", .vstr "v")], false, none, none⟩]⟩
        ⟨[]⟩ ["x"] = [] :=
  set_slot_pending_correction_dropped [] "x" (.vstr "v")
    ⟨[.correction ⟨"pc", "s0", [("x", .vstr "v")], false, none, none⟩]⟩
    ⟨[]⟩ ["x"] (by decide)
    (by
      intro cs h
      rw [show getCurrentCollectStep
          ⟨[.correction ⟨"pc", "s0", [("x", SlotValue.vstr "v")], false, none, none⟩]⟩
          ⟨[]⟩ = none from rfl] at h
      exact Option.noConfusion h)
    rfl

/-- **C7** (counterexample): when the active collect step *is* asking for
the slot (here the correction pattern flow itself carries a collect step
for `x`, with the collect-information pattern frame on top of the pending
correction frame), the command is not dropped even though the proposed
value equals the pending correction: it passes through as the answer to the
current collect step. -/
theorem set_slot_pending_correction_kept_when_asked :
    (alreadyCorrectedSlots
        ⟨[.correction ⟨"pc", "s", [("x", .vstr "v")], false, none, none⟩,
          .collectInfo "ci" "s2" "x" "utter_ask_x"]⟩).lookup "x"
        = some (.vstr "v") ∧
      getCurrentCollectStep
          ⟨[.correction ⟨"pc", "s", [("x", .vstr "v")], false, none, none⟩,
            .collectInfo "ci" "s2" "x" "utter_ask_x"]⟩
          ⟨[⟨"pattern_correction", "h", [.collect "s" "x" "utter_ask_x" false]⟩]⟩
        = some (.collect "s" "x" "utter_ask_x" false) ∧
      "x" ∈ ["x"] ∧
      cleanUpSlotCommand [] "x" (.vstr "v")
          ⟨[.correction ⟨"pc", "s", [("x", .vstr "v")], false, none, none⟩,
            .collectInfo "ci" "s2" "x" "utter_ask_x"]⟩
          ⟨[⟨"pattern_correction", "h", [.collect "s" "x" "utter_ask_x" false]⟩]⟩
          ["x"]
        = [.setSlot "x" (.vstr "v")] ∧
      [Command.setSlot "x" (.vstr "v")] ≠ ([] : List Command) :=
  ⟨rfl, rfl, by decide, rfl, by decide⟩

/-- **C5** (counterexample): when the later value is already pending for
`x` in the top correction-pattern frame's corrected slots, the second
set-slot command is removed by the already-corrected check and the single
`CorrectSlotsCommand` maps `x` to the *earlier* value — not the later one
as the claim states. The remaining conjuncts show the claim's premises
hold at this input: no active collect step, and `x` filled earlier. -/
theorem two_set_slots_keep_earlier_when_later_pending :
    cleanUpCommands [.setSlot "x" (.vstr "1"), .setSlot "x" (.vstr "2")]
        ⟨[.correction ⟨"pc", "s0", [("x", .vstr "2")], false, none, none⟩]⟩
        ⟨[]⟩ ["x"]
        = [.correctSlots [⟨"x", .vstr "1"⟩]] ∧
      correctionDict [⟨"x", .vstr "1"⟩] ≠ [("x", .vstr "2")] ∧
      getCurrentCollectStep
          ⟨[.correction ⟨"pc", "s0", [("x", .vstr "2")], false, none, none⟩]⟩
          ⟨[]⟩ = none ∧
      "x" ∈ ["x"] :=
  ⟨rfl, by decide, rfl, by decide⟩

/-- **C5** (amended): a turn consisting of two `SetSlotCommand`s for the
same slot `x`, already filled for the active flow, with the active collect
step not asking for `x` and the later value not already pending for `x` in
the top correction-pattern frame: cleanup produces a single
`CorrectSlotsCommand` whose correction set maps `x` — and only `x` — to the
value of the later command. -/
theorem two_set_slots_coalesce
    (x : String) (v1 v2 : SlotValue) (stack : DialogueStack)
    (allFlows : FlowsList) (slotsSoFar : List String)
    (hFilled : x ∈ slotsSoFar)
    (hNotAsking : ∀ cs, getCurrentCollectStep stack allFlows = some cs →
      cs.collectSlot? ≠ some x)
    (hNotPending : (alreadyCorrectedSlots stack).lookup x ≠ some v2) :
    ∃ sl,
      cleanUpCommands [.setSlot x v1, .setSlot x v2] stack allFlows slotsSoFar
          = [.correctSlots sl]
        ∧ correctionDict sl = [(x, v2)] := by
  unfold cleanUpCommands
  simp only [List.foldl_cons, List.foldl_nil]
  rw [show cleanUpOne [.setSlot x v1, .setSlot x v2] stack allFlows slotsSoFar
      [] (.setSlot x v1) = cleanUpSlotCommand [] x v1 stack allFlows slotsSoFar
      from rfl]
  by_cases h1 : (alreadyCorrectedSlots stack).lookup x = some v1
  · rw [cleanUpSlotCommand_drop [] x v1 stack allFlows slotsSoFar
      hFilled hNotAsking h1]
    rw [show cleanUpOne [.setSlot x v1, .setSlot x v2] stack allFlows
        slotsSoFar [] (.setSlot x v2)
        = cleanUpSlotCommand [] x v2 stack allFlows slotsSoFar from rfl]
    rw [cleanUpSlotCommand_convert [] x v2 stack allFlows slotsSoFar
      hFilled hNotAsking hNotPending]
    exact ⟨[⟨x, v2⟩], rfl, by simp [correctionDict, dictUpsertV]⟩
  · rw [cleanUpSlotCommand_convert [] x v1 stack allFlows slotsSoFar
      hFilled hNotAsking h1]
    rw [show appendCorrectedSlot [] ⟨x, v1⟩
        = [Command.correctSlots [⟨x, v1⟩]] from rfl]
    rw [show cleanUpOne [.setSlot x v1, .setSlot x v2] stack allFlows
        slotsSoFar [Command.correctSlots [⟨x, v1⟩]] (.setSlot x v2)
        = cleanUpSlotCommand [Command.correctSlots [⟨x, v1⟩]] x v2 stack
          allFlows slotsSoFar from rfl]
    rw [cleanUpSlotCommand_convert [Command.correctSlots [⟨x, v1⟩]] x v2
      stack allFlows slotsSoFar hFilled hNotAsking hNotPending]
    refine ⟨[⟨x, v1⟩, ⟨x, v2⟩], rfl, ?_⟩
    simp [correctionDict, dictUpsertV]

/-- Witness for C5: slot `"x"` filled earlier for the active user flow, no
collect pattern on the stack, values `"1"` then `"2"`. -/
theorem two_set_slots_coalesce_witness :
    ∃ sl,
      cleanUpCommands [.setSlot "x" (.vstr "1"), .setSlot "x" (.vstr "2")]
          ⟨[.userFlow "u1" "bk" "p1" "regular"]⟩ ⟨[]⟩ ["x"]
          = [.correctSlots sl]
        ∧ correctionDict sl = [("x", .vstr "2")] :=
  two_set_slots_coalesce "x" (.vstr "1") (.vstr "2")
    ⟨[.userFlow "u1" "bk" "p1" "regular"]⟩ ⟨[]⟩ ["x"]
    (by decide)
    (by
      intro cs h
      rw [show getCurrentCollectStep ⟨[.userFlow "u1" "bk" "p1" "regular"]⟩
          ⟨[]⟩ = none from rfl] at h
      exact Option.noConfusion h)
    (by decide)

theorem runCommandsLoop_events_shape (allFlows : FlowsList)
    (runCmd : Command → DialogueStateTracker → FlowsList →
      DialogueStateTracker → List Event)
    (original : DialogueStateTracker) (P : Event → Prop)
    (hrun : ∀ cmd tr e, e ∈ runCmd cmd tr allFlows original → P e) :
    ∀ (cmds : List Command) (acc : List Event) (tr : DialogueStateTracker),
      ∃ extra,
        (runCommandsLoop allFlows runCmd original cmds (acc, tr)).1
            = acc ++ extra
          ∧ ∀ e ∈ extra, P e := by
  intro cmds
  induction cmds with
  | nil =>
    intro acc tr
    exact ⟨[], by simp [runCommandsLoop], by intro e he; cases he⟩
  | cons c rest ih =>
    intro acc tr
    obtain ⟨extra, heq, hex⟩ :=
      ih (acc ++ runCmd c tr allFlows original)
        (tr.updateWithEvents (runCmd c tr allFlows original))
    refine ⟨runCmd c tr allFlows original ++ extra, ?_, ?_⟩
    · simp only [runCommandsLoop]
      rw [heq, List.append_assoc]
    · intro e he
      rcases List.mem_append.mp he with h | h
      · exact hrun c tr e h
      · exact hex e h

theorem removeDupRev_keeps (k : String) (v : SlotValue) :
    ∀ (l : List Event) (seen : List String),
      (∀ e ∈ l, ∀ w, e ≠ .slotSet k w) → k ∉ seen →
      Event.slotSet k v ∈ removeDupSetSlotsRev seen (l ++ [Event.slotSet k v]) := by
  intro l
  induction l with
  | nil =>
    intro seen _ hk
    simp [removeDupSetSlotsRev, hk]
  | cons e es ih =>
    intro seen hl hk
    have hes : ∀ x ∈ es, ∀ w, x ≠ Event.slotSet k w :=
      fun x hx => hl x (List.mem_cons_of_mem e hx)
    match e with
    | .slotSet k2 v2 =>
      have hk2 : k2 ≠ k := by
        intro h
        exact hl (.slotSet k2 v2) (List.mem_cons_self _ _) v2 (by rw [h])
      by_cases hs : k2 ∈ seen
      · simpa [removeDupSetSlotsRev, hs] using ih seen hes hk
      · have hk3 : k ∉ k2 :: seen := by
          intro h
          rcases List.mem_cons.mp h with h | h
          · exact hk2 h.symm
          · exact hk h
        simp only [List.cons_append, removeDupSetSlotsRev, if_neg hs]
        exact List.mem_cons_of_mem _ (ih (k2 :: seen) hes hk3)
    | .stackUpdated fs =>
      simp only [List.cons_append, removeDupSetSlotsRev]
      exact List.mem_cons_of_mem _ (ih seen hes hk)

theorem removeDup_keeps_head (k : String) (v : SlotValue) (rest : List Event)
    (hrest : ∀ e ∈ rest, ∀ w, e ≠ .slotSet k w) :
    Event.slotSet k v ∈ removeDuplicatedSetSlots (Event.slotSet k v :: rest) := by
  unfold removeDuplicatedSetSlots
  rw [List.reverse_cons, List.mem_reverse]
  exact removeDupRev_keeps k v rest.reverse []
    (fun e he w => hrest e (List.mem_reverse.mp he) w) (by simp)

/-- **C3**: when some flow referenced by a stack frame no longer exists in
the catalog or carries a fingerprint differing from the stored map
(`find_updated_flows` is non-empty), `execute_commands` discards the turn's
whole command list and runs exactly one `HandleCodeChangeCommand` — its
result is the fingerprint-persistence events followed by that single
command's events, deduplicated; and whenever the recomputed fingerprint map
differs from the stored one, the returned events contain the slot-set
persisting the new fingerprints, overridden commands or not (provided no
command's own events rewrite the fingerprint slot). -/
theorem execute_commands_code_change_override
    (commands : List Command) (slotsSoFar : List String)
    (tracker : DialogueStateTracker) (allFlows : FlowsList)
    (runCmd : Command → DialogueStateTracker → FlowsList →
      DialogueStateTracker → List Event)
    (hrun : ∀ cmd tr tr0 e, e ∈ runCmd cmd tr allFlows tr0 →
      ∀ w, e ≠ .slotSet FLOW_HASHES_SLOT w) :
    (findUpdatedFlows tracker allFlows ≠ [] →
      executeCommands commands slotsSoFar tracker allFlows runCmd
        = .ok (removeDuplicatedSetSlots
            (execFlowHashEvents tracker allFlows ++
              runCmd .handleCodeChange
                (tracker.updateWithEvents (execFlowHashEvents tracker allFlows))
                allFlows tracker)))
    ∧ (∀ evs,
        executeCommands commands slotsSoFar tracker allFlows runCmd = .ok evs →
        ¬ dictBEq (calculateFlowFingerprints allFlows) (storedFingerprints tracker) →
        Event.slotSet FLOW_HASHES_SLOT
            (.vmap (calculateFlowFingerprints allFlows)) ∈ evs) := by
  constructor
  · intro hStale
    simp only [executeCommands, if_pos hStale]
    rfl
  · intro evs hex hdiff
    have hhash : execFlowHashEvents tracker allFlows
        = [.slotSet FLOW_HASHES_SLOT (.vmap (calculateFlowFingerprints allFlows))] := by
      simp [execFlowHashEvents, hdiff]
    simp only [executeCommands] at hex
    rcases hv : validateStateOfCommands
        (if findUpdatedFlows tracker allFlows ≠ [] then [Command.handleCodeChange]
          else cleanUpCommands commands tracker.stack allFlows slotsSoFar) with e | u
    · rw [hv] at hex
      exact Except.noConfusion hex
    · rw [hv] at hex
      simp only [Except.ok.injEq] at hex
      obtain ⟨extra, hsh, hP⟩ :=
        runCommandsLoop_events_shape allFlows runCmd tracker
          (fun e => ∀ w, e ≠ .slotSet FLOW_HASHES_SLOT w)
          (fun cmd tr e he => hrun cmd tr tracker e he)
          ((if findUpdatedFlows tracker allFlows ≠ [] then [Command.handleCodeChange]
            else cleanUpCommands commands tracker.stack allFlows slotsSoFar).reverse)
          (execFlowHashEvents tracker allFlows)
          (tracker.updateWithEvents (execFlowHashEvents tracker allFlows))
      rw [hsh, hhash] at hex
      rw [← hex]
      exact removeDup_keeps_head FLOW_HASHES_SLOT _ extra hP

/-- Witness for C3: a stack frame referencing flow `"missing"` absent from
the empty catalog makes `find_updated_flows` non-empty; both conjuncts of
the theorem are instantiated. -/
theorem execute_commands_code_change_override_witness :
    findUpdatedFlows ⟨[.userFlow "u1" "missing" "START" "regular"], [], []⟩ ⟨[]⟩
        ≠ [] ∧
      executeCommands [] [] ⟨[.userFlow "u1" "missing" "START" "regular"], [], []⟩
          ⟨[]⟩ (fun _ _ _ _ => []) = .ok [] := by
  have h :=
    (execute_commands_code_change_override [] []
      ⟨[.userFlow "u1" "missing" "START" "regular"], [], []⟩ ⟨[]⟩
      (fun _ _ _ _ => [])
      (by intro cmd tr tr0 e he; cases he)).1 (by decide)
  exact ⟨by decide, by rw [h]; rfl⟩

theorem findFrameIndex_append (pre : List DSFrame) (f : DSFrame)
    (post : List DSFrame) (hpre : ∀ g ∈ pre, g.frameId ≠ f.frameId) :
    findFrameIndex f.frameId (pre ++ f :: post) = some pre.length := by
  induction pre with
  | nil => simp [findFrameIndex]
  | cons g gs ih =>
    have hg := hpre g (List.mem_cons_self g gs)
    have ihg := ih (fun x hx => hpre x (List.mem_cons_of_mem g hx))
    show (if g.frameId = f.frameId then some 0
        else (findFrameIndex f.frameId (gs ++ f :: post)).map (· + 1))
      = some (g :: gs).length
    rw [if_neg hg, ihg]
    rfl

theorem findFrameIndex_none (tid : String) :
    ∀ (l : List DSFrame), (∀ g ∈ l, g.frameId ≠ tid) →
      findFrameIndex tid l = none := by
  intro l
  induction l with
  | nil => intro _; rfl
  | cons g gs ih =>
    intro h
    have hg := h g (List.mem_cons_self g gs)
    have ihg := ih (fun x hx => h x (List.mem_cons_of_mem g hx))
    show (if g.frameId = tid then some 0
        else (findFrameIndex tid gs).map (· + 1)) = none
    rw [if_neg hg, ihg]
    rfl

theorem endFramesUntil_append (tid : String) (q : List DSFrame)
    (target : DSFrame) (rest : List DSFrame)
    (hq : ∀ g ∈ q, g.isBaseFlowFrame = true → g.frameId ≠ tid)
    (htb : target.isBaseFlowFrame = true) (hti : target.frameId = tid) :
    endFramesUntil tid (q ++ target :: rest)
      = q.map DSFrame.fastForwardedToEnd ++
          target.withStepId (continueStepForId END_STEP) :: rest := by
  induction q with
  | nil => simp [endFramesUntil, htb, hti]
  | cons g gs ih =>
    have ihq := ih (fun x hx hb => hq x (List.mem_cons_of_mem g hx) hb)
    show (if g.isBaseFlowFrame = true then
        if g.frameId = tid then
          g.withStepId (continueStepForId END_STEP) :: (gs ++ target :: rest)
        else
          g.withStepId (continueStepForId END_STEP) ::
            endFramesUntil tid (gs ++ target :: rest)
      else g :: endFramesUntil tid (gs ++ target :: rest))
      = List.map DSFrame.fastForwardedToEnd (g :: gs) ++
          target.withStepId (continueStepForId END_STEP) :: rest
    by_cases hb : g.isBaseFlowFrame = true
    · have hg := hq g (List.mem_cons_self g gs) hb
      rw [if_pos hb, if_neg hg, ihq]
      simp [DSFrame.fastForwardedToEnd, hb]
    · rw [if_neg hb, ihq]
      simp only [Bool.not_eq_true] at hb
      simp [DSFrame.fastForwardedToEnd, hb]

theorem endPreviousCorrection_eq (c : CorrectionFrame) (pre post : List DSFrame)
    (hpost : ∀ g ∈ post, g.isBaseFlowFrame = true → g.frameId ≠ c.frameId) :
    endPreviousCorrection (.correction c) ⟨pre ++ .correction c :: post⟩
      = ⟨pre ++
          .correction { c with stepId := continueStepForId END_STEP } ::
            post.map DSFrame.fastForwardedToEnd⟩ := by
  unfold endPreviousCorrection
  rw [if_neg (by simp [DSFrame.flowId?])]
  have hrev : (pre ++ DSFrame.correction c :: post).reverse
      = post.reverse ++ DSFrame.correction c :: pre.reverse := by
    simp
  rw [show (DSFrame.correction c).frameId = c.frameId from rfl]
  rw [show ({ frames := pre ++ DSFrame.correction c :: post } :
      DialogueStack).frames = pre ++ DSFrame.correction c :: post from rfl]
  rw [hrev]
  rw [endFramesUntil_append c.frameId post.reverse (.correction c) pre.reverse
    (fun g hg hb => hpost g (List.mem_reverse.mp hg) hb) rfl rfl]
  rw [show (DSFrame.correction c).withStepId (continueStepForId END_STEP)
      = .correction { c with stepId := continueStepForId END_STEP } from rfl]
  simp

theorem pyInsert_at_length (pre rest : List DSFrame) (f : DSFrame) :
    pyInsert (pre ++ rest) pre.length f = pre ++ f :: rest := by
  induction pre with
  | nil =>
    cases rest with
    | nil => rfl
    | cons a as => rfl
  | cons g gs ih =>
    show g :: pyInsert (gs ++ rest) gs.length f = g :: (gs ++ f :: rest)
    rw [ih]

/-- **C4**: running a `CorrectSlotsCommand` while the top flow frame is
already a correction-pattern frame (its flow id is the correction pattern
id) inserts the new correction frame at the index of that prior correction
frame — located by its frame id — rather than on top, and sets the step id
of every `BaseFlowStackFrame` from the top of the stack down to and
including the prior correction frame to the continue-to-END marker;
separately, when a frame's frame id cannot be found on the stack,
`index_for_correction_frame` raises. -/
theorem correct_slots_stacks_below_previous_correction
    (freshFrameId : String) (correctedSlots : List CorrectedSlot)
    (tracker : DialogueStateTracker) (allFlows : FlowsList)
    (pre post : List DSFrame) (c cf : CorrectionFrame)
    (hframes : tracker.stackFrames = pre ++ .correction c :: post)
    (htop : topFlowFrame tracker.stack = some (.correction c))
    (hpre : ∀ g ∈ pre, g.frameId ≠ c.frameId)
    (hpost : ∀ g ∈ post, g.isBaseFlowFrame = true → g.frameId ≠ c.frameId)
    (hcf : createCorrectionFrame freshFrameId (topUserFlowFrame tracker.stack)
        (correctedSlotsDict correctedSlots tracker) allFlows tracker
      = .ok (some cf)) :
    (runCorrectSlotsCommand freshFrameId correctedSlots tracker allFlows
        = .ok [.stackUpdated
            (pre ++ .correction cf ::
              .correction { c with stepId := continueStepForId END_STEP } ::
                post.map DSFrame.fastForwardedToEnd)] ∧
      indexForCorrectionFrame (.correction c) tracker.stack = .ok pre.length)
    ∧ (∀ (stack2 : DialogueStack) (tf2 : DSFrame),
        tf2.flowId? = some FLOW_PATTERN_CORRECTION_ID →
        (∀ g ∈ stack2.frames, g.frameId ≠ tf2.frameId) →
        ∃ msg, indexForCorrectionFrame tf2 stack2 = .error msg) := by
  have hstack : tracker.stack = ⟨pre ++ .correction c :: post⟩ := by
    unfold DialogueStateTracker.stack
    rw [hframes]
  have hidx : indexForCorrectionFrame (.correction c) tracker.stack
      = .ok pre.length := by
    rw [hstack]
    unfold indexForCorrectionFrame
    rw [if_neg (by simp [DSFrame.flowId?])]
    rw [show (DSFrame.correction c).frameId = c.frameId from rfl]
    rw [show c.frameId = (DSFrame.correction c).frameId from rfl]
    rw [findFrameIndex_append pre (.correction c) post hpre]
  have hne : ¬ (pre ++ DSFrame.correction cf ::
      DSFrame.correction { c with stepId := continueStepForId END_STEP } ::
        post.map DSFrame.fastForwardedToEnd = tracker.stackFrames) := by
    intro hcontra
    have hlen := congrArg List.length hcontra
    rw [hframes] at hlen
    simp at hlen
  refine ⟨⟨?_, hidx⟩, ?_⟩
  · simp only [runCorrectSlotsCommand]
    rw [htop, hcf]
    simp only [hidx]
    rw [hstack]
    rw [endPreviousCorrection_eq c pre post hpost]
    simp only [DialogueStack.push, createStackUpdatedEvents]
    rw [pyInsert_at_length pre _ (.correction cf)]
    rw [if_neg hne]
  · intro stack2 tf2 hflow hnone
    refine ⟨"Could not find the previous correction frame " ++
      tf2.frameId ++ " on the stack.", ?_⟩
    unfold indexForCorrectionFrame
    rw [if_neg (by rw [hflow]; intro h; exact h rfl)]
    rw [findFrameIndex_none tf2.frameId stack2.frames hnone]

/-- Witness for C4: a user flow frame below a prior correction frame
`"pc"`; the new correction for slot `"sx"` is inserted between them and the
prior correction fast-forwards to END. -/
theorem correct_slots_stacks_below_previous_correction_witness :
    runCorrectSlotsCommand "fresh1" [⟨"sx", .vstr "5"⟩]
        ⟨[.userFlow "u1" "bk" "p1" "regular",
            .correction ⟨"pc", "s0", [("sy", .vstr "1")], false, none, none⟩],
          [("sx", .vstr "3")], ["sx"]⟩
        ⟨[⟨"bk", "h", [.collect "a" "sx" "utter_ask_sx" false, .other "p1"]⟩]⟩
      = .ok [.stackUpdated
          [.userFlow "u1" "bk" "p1" "regular",
            .correction ⟨"fresh1", "START", [("sx", .vstr "5")], false,
              some "bk", some "a"⟩,
            .correction ⟨"pc", "NEXT:END", [("sy", .vstr "1")], false,
              none, none⟩]] := by
  have h :=
    (correct_slots_stacks_below_previous_correction "fresh1" [⟨"sx", .vstr "5"⟩]
      ⟨[.userFlow "u1" "bk" "p1" "regular",
          .correction ⟨"pc", "s0", [("sy", .vstr "1")], false, none, none⟩],
        [("sx", .vstr "3")], ["sx"]⟩
      ⟨[⟨"bk", "h", [.collect "a" "sx" "utter_ask_sx" false, .other "p1"]⟩]⟩
      [.userFlow "u1" "bk" "p1" "regular"] []
      ⟨"pc", "s0", [("sy", .vstr "1")], false, none, none⟩
      ⟨"fresh1", "START", [("sx", .vstr "5")], false, some "bk", some "a"⟩
      rfl rfl (by decide) (by intro g hg; cases hg) rfl).1.1
  rw [h]
  rfl

end Cdu
